import Mathlib

/-!
Verification of the `trash` language toolchain (parser-combinator runtime,
lexer, parser and tree-walking interpreter) against its specification.

The development is a shallow embedding of the TypeScript sources:

* `parser`     embeds `app/parser/parser.ts` (generic combinators);
* `stringView` material embeds `app/stringView/stringView.ts`;
* `lex`        embeds `app/trash/lex.ts` (the lexer);
* `ast`        embeds `app/trash/ast.ts` (the AST node classes);
* `tparse`     embeds `app/trash/parse.ts` (the grammar and `parse`);
* `interp`     embeds `app/trash/interpret.ts` (the evaluator).

Modelling conventions, used throughout:

* JS `number` (IEEE-754 double) is modelled as `ℚ`.  Every numeric value
  reached by the theorems below is a small integer, on which double
  arithmetic is exact, so the idealisation is faithful on all inputs the
  theorems touch.  (`/`, `%` on non-integers and overflow are not exercised.)
* JS exceptions are modelled with `Except`; mutable object graphs
  (environments, objects, function closures) live in an explicit heap
  (`interp.InterpState`) and JS object references are heap indices, so JS
  reference equality is index equality.
* Unbounded loops and recursion (combinator repetition, the trampolined
  grammar, the evaluator) take a fuel argument; fuel exhaustion is a
  distinguished outcome that none of the concrete computations below reach.
-/

namespace stringView

/-- Source position, `Position` from stringView.ts: 0-based line/column. -/
structure Position where
  line : Nat
  col : Nat
deriving DecidableEq, Repr

/-- `Position.furtherThan` from stringView.ts. -/
def Position.furtherThan (a other : Position) : Bool :=
  a.line > other.line || (a.line == other.line && a.col > other.col)

/-- `StringView` from stringView.ts.  `val` is the underlying string,
`start` the window offset (clamped to `val.length` by the constructor),
`len` the window length (the constructor default `max 0 (val.length - start)`
is the only form this code ever produces, since `sub` is always called
without an explicit length), and `pos` the cached source position `_pos`. -/
structure StringView where
  val : List Char
  start : Nat
  len : Nat
  pos : Position
deriving DecidableEq, Repr

/-- `new StringView(s)`: a fresh view of the whole string at position (0,0). -/
def StringView.ofString (s : String) : StringView :=
  ⟨s.data, 0, s.data.length, ⟨0, 0⟩⟩

/-- `StringView.empty`: `length <= 0`. -/
def StringView.empty (v : StringView) : Bool :=
  v.len == 0

/-- `StringView.get(i)` returns a one-character string, or `""` out of range
(JS `charAt` semantics). -/
def StringView.get (v : StringView) (i : Nat) : String :=
  if i < v.len then
    match v.val.get? (v.start + i) with
    | some c => String.singleton c
    | none => ""
  else ""

/-- The character at window offset `i`, when in range. -/
def StringView.getc? (v : StringView) (i : Nat) : Option Char :=
  if i < v.len then v.val.get? (v.start + i) else none

/-- `val.substr(start, n)` as used by the `string`/`not` combinators:
at most `n` characters of `val` beginning at the window start. -/
def StringView.substrTS (v : StringView) (n : Nat) : String :=
  ⟨(v.val.drop v.start).take n⟩

/-- `StringView.sub(start)`: advance the window by `n` characters, updating
the line/column position by scanning the skipped characters (newline resets
the column), exactly as the loop in `sub` does.  The clamping mirrors the
constructor. -/
def StringView.sub (v : StringView) (n : Nat) : StringView :=
  let stop := min v.val.length (v.start + n)
  let newPos := ((v.val.drop v.start).take (stop - v.start)).foldl
    (fun p c => if c == '\n' then ⟨p.line + 1, 0⟩ else ⟨p.line, p.col + 1⟩) v.pos
  ⟨v.val, stop, v.val.length - stop, newPos⟩

end stringView

namespace parser

open stringView

/-- `Pair` from parser.ts. -/
structure Pair (α β : Type) where
  first : α
  second : β
deriving DecidableEq, Repr

/-- `ErrorInfo` from parser.ts: failure position, committed flag,
expectation set, message, optional context. -/
structure ErrorInfo (π : Type) where
  pos : π
  consumedInput : Bool
  expectations : List String
  message : String
  context : Option String
deriving DecidableEq, Repr

/-- `ParseInfo` from parser.ts: output, remaining input, consumed flag and
the optional `failedAlternative` error. -/
structure ParseInfo (ι π τ : Type) where
  output : τ
  rest : ι
  consumedInput : Bool
  failedAlternative : Option (ErrorInfo π)
deriving DecidableEq, Repr

/-- `ParseResult<T> = ParseInfo<T> | ErrorInfo`, discriminated by `isError`. -/
inductive ParseResult (ι π τ : Type) where
  | info (r : ParseInfo ι π τ)
  | error (e : ErrorInfo π)
deriving DecidableEq, Repr

/-- A parser is a function from input to result (`Parser<T>` in parser.ts). -/
def Parser (ι π τ : Type) : Type :=
  ι → ParseResult ι π τ

/-- The `ParserInput` interface from parser.ts: `empty()` and `pos()`. -/
class ParserInput (ι : Type) (π : outParam Type) where
  empty : ι → Bool
  pos : ι → π

/-- The `Position` interface from parser.ts: `furtherThan(other)`. -/
class PositionOrd (π : Type) where
  furtherThan : π → π → Bool

instance : ParserInput StringView Position where
  empty := StringView.empty
  pos := StringView.pos

instance : PositionOrd Position where
  furtherThan := Position.furtherThan

variable {ι π τ υ σ τ1 τ2 : Type}

/-- `quoted` from parser.ts: wrap in single quotes. -/
def quoted (s : String) : String :=
  "\x27" ++ s ++ "\x27"

/-- `fmap` from parser.ts (note: the rebuilt `ParseInfo` drops any
`failedAlternative`, since the TS constructor is called without it). -/
def fmap (fn : τ → υ) (p : Parser ι π τ) : Parser ι π υ := fun input =>
  match p input with
  | .error e => .error e
  | .info r => .info ⟨fn r.output, r.rest, r.consumedInput, none⟩

/-- `bind` from parser.ts: feed output and remaining input to `fn`. -/
def bind (p : Parser ι π τ) (fn : τ → ι → ParseResult ι π υ) : Parser ι π υ := fun input =>
  match p input with
  | .error e => .error e
  | .info r => fn r.output r.rest

/-- `lift` from parser.ts: succeed without consuming. -/
def lift (t : τ) : Parser ι π τ := fun input =>
  .info ⟨t, input, false, none⟩

/-- `fail` from parser.ts: fail at the current position without consuming. -/
def fail [ParserInput ι π] (message : String) : Parser ι π τ := fun input =>
  .error ⟨ParserInput.pos input, false, [], message, none⟩

/-- `try_` from parser.ts: demote a committed failure to an uncommitted one
(dropping the context, as the TS `ErrorInfo` is rebuilt without it) and
report success as not-consumed. -/
def try_ (p : Parser ι π τ) : Parser ι π τ := fun input =>
  match p input with
  | .error e => .error ⟨e.pos, false, e.expectations, e.message, none⟩
  | .info r => .info ⟨r.output, r.rest, false, r.failedAlternative⟩

/-- The loop body of `either` from parser.ts, with the retained best-so-far
error as an explicit accumulator.  The final `none` case models the TS
function running off the end of an empty parser list (it would return
`null`); no call site passes an empty list. -/
def eitherGo [ParserInput ι π] [PositionOrd π] :
    List (Parser ι π τ) → Option (ErrorInfo π) → ι → ParseResult ι π τ
  | [], best, input =>
    match best with
    | some e => .error e
    | none => .error ⟨ParserInput.pos input, false, [], "either of no alternatives", none⟩
  | p :: rest, best, input =>
    match p input with
    | .info result =>
      match best with
      | some err =>
        if err.consumedInput && PositionOrd.furtherThan err.pos (ParserInput.pos result.rest) then
          .info { result with failedAlternative := some err }
        else
          .info result
      | none => .info result
    | .error result =>
      match best with
      | none => eitherGo rest (some result) input
      | some err =>
        if result.consumedInput then
          if PositionOrd.furtherThan result.pos err.pos then
            eitherGo rest (some result) input
          else if !(PositionOrd.furtherThan err.pos result.pos) then
            eitherGo rest (some { err with expectations := err.expectations ++ result.expectations }) input
          else
            eitherGo rest (some err) input
        else
          eitherGo rest (some err) input

/-- `either` from parser.ts (variadic in TS; a list here). -/
def either [ParserInput ι π] [PositionOrd π] (parsers : List (Parser ι π τ)) : Parser ι π τ :=
  fun input => eitherGo parsers none input

/-- `combine` from parser.ts: run both parsers; on success the consumed flag
is the conjunction `result1.consumedInput && result2.consumedInput`; on a
failure of the second parser, surface the first parser's
`failedAlternative` when it lies strictly further, otherwise rebuild the
error, committed when the second parser consumed or the first one advanced
the input. -/
def combine [ParserInput ι π] [PositionOrd π]
    (parser1 : Parser ι π τ1) (parser2 : Parser ι π τ2) (fn : τ1 → τ2 → υ) :
    Parser ι π υ := fun input =>
  match parser1 input with
  | .error e => .error e
  | .info result1 =>
    match parser2 result1.rest with
    | .error result2 =>
      match result1.failedAlternative with
      | some fa =>
        if PositionOrd.furtherThan fa.pos result2.pos then
          .error fa
        else
          .error ⟨result2.pos,
            result2.consumedInput
              || PositionOrd.furtherThan (ParserInput.pos result1.rest) (ParserInput.pos input),
            result2.expectations, result2.message, result2.context⟩
      | none =>
        .error ⟨result2.pos,
          result2.consumedInput
            || PositionOrd.furtherThan (ParserInput.pos result1.rest) (ParserInput.pos input),
          result2.expectations, result2.message, result2.context⟩
    | .info result2 =>
      .info ⟨fn result1.output result2.output, result2.rest,
        result1.consumedInput && result2.consumedInput, none⟩

/-- `discardLeft` from parser.ts. -/
def discardLeft [ParserInput ι π] [PositionOrd π]
    (left : Parser ι π τ1) (right : Parser ι π τ2) : Parser ι π τ2 :=
  combine left right (fun _ r => r)

/-- `discardRight` from parser.ts. -/
def discardRight [ParserInput ι π] [PositionOrd π]
    (left : Parser ι π τ1) (right : Parser ι π τ2) : Parser ι π τ1 :=
  combine left right (fun r _ => r)

/-- `enclosed` from parser.ts. -/
def enclosed [ParserInput ι π] [PositionOrd π]
    (left : Parser ι π τ1) (p : Parser ι π υ) (right : Parser ι π τ2) : Parser ι π υ :=
  discardLeft left (discardRight p right)

/-- `parseRepeated` from parser.ts, with fuel for the `while` loop.  The
fuel-out case stands for the nontermination the TS loop would exhibit if an
iteration ever succeeded without advancing `rest`; every use below supplies
enough fuel that it is never reached. -/
def parseRepeated [ParserInput ι π] :
    Nat → ι → Parser ι π τ → υ → (υ → τ → υ) → Bool → ParseResult ι π υ
  | 0, input, _, _, _, _ =>
    .error ⟨ParserInput.pos input, true, [], "repetition fuel exhausted", none⟩
  | fuel + 1, input, p, init, fn, consumedInput =>
    if ParserInput.empty (π := π) input then
      .info ⟨init, input, consumedInput, none⟩
    else
      match p input with
      | .error e =>
        if e.consumedInput then .error e
        else .info ⟨init, input, consumedInput, some e⟩
      | .info r =>
        parseRepeated fuel r.rest p (fn init r.output) fn (consumedInput || r.consumedInput)

/-- `option` from parser.ts: default on an uncommitted failure. -/
def option (d : τ) (p : Parser ι π τ) : Parser ι π τ := fun input =>
  match p input with
  | .info r => .info r
  | .error e =>
    if e.consumedInput then .error e
    else .info ⟨d, input, false, none⟩

/-- `many` from parser.ts (fuel threaded to `parseRepeated`). -/
def many [ParserInput ι π] (fuel : Nat) (p : Parser ι π τ) (init : υ) (fn : υ → τ → υ) :
    Parser ι π υ := fun input =>
  parseRepeated fuel input p init fn false

/-- `many1` from parser.ts: one mandatory parse, then `parseRepeated`
(whose consumed flag restarts at `false`, as in the source). -/
def many1 [ParserInput ι π] (fuel : Nat) (p : Parser ι π τ) (init : υ) (fn : υ → τ → υ) :
    Parser ι π υ := fun input =>
  match p input with
  | .error e => .error e
  | .info r => parseRepeated fuel r.rest p (fn init r.output) fn false

/-- `separatedBy` from parser.ts. -/
def separatedBy [ParserInput ι π] [PositionOrd π] (fuel : Nat)
    (p : Parser ι π τ) (separator : Parser ι π σ) (init : υ) (fn : υ → τ → υ) :
    Parser ι π υ :=
  option init
    (bind p (fun first input => many fuel (discardLeft separator p) (fn init first) fn input))

/-- `char` from parser.ts (StringView-specific). -/
def char (c : Char) : Parser StringView Position Char := fun input =>
  if input.empty then
    .error ⟨input.pos, false, [quoted (String.singleton c)], "unexpected end of input", none⟩
  else if input.get 0 == String.singleton c then
    .info ⟨c, input.sub 1, true, none⟩
  else
    .error ⟨input.pos, false, [quoted (String.singleton c)],
      "unexpected character " ++ quoted (input.get 0), none⟩

/-- `oneOf` from parser.ts: first matching character of `chars` wins. -/
def oneOf (chars : String) : Parser StringView Position Char := fun input =>
  let expectations := chars.data.map (fun c => quoted (String.singleton c))
  if input.empty then
    .error ⟨input.pos, false, expectations, "unexpected end of input", none⟩
  else
    match chars.data.find? (fun c => input.get 0 == String.singleton c) with
    | some c => .info ⟨c, input.sub 1, true, none⟩
    | none =>
      .error ⟨input.pos, false, expectations, "unexpected character " ++ quoted (input.get 0), none⟩

/-- `noneOf` from parser.ts. -/
def noneOf (chars : String) : Parser StringView Position Char := fun input =>
  match input.getc? 0 with
  | none => .error ⟨input.pos, false, [], "unexpected end of input", none⟩
  | some c0 =>
    if chars.data.any (fun c => String.singleton c0 == String.singleton c) then
      .error ⟨input.pos, false, [], "unexpected character " ++ quoted (String.singleton c0), none⟩
    else
      .info ⟨c0, input.sub 1, true, none⟩

/-- `string` from parser.ts: compare `val.substr(start, s.length)` with `s`. -/
def string (s : String) : Parser StringView Position String := fun input =>
  let substr := input.substrTS s.length
  if substr == s then
    .info ⟨s, input.sub s.length, true, none⟩
  else
    .error ⟨input.pos, false, [quoted s], "unexpected " ++ quoted substr, none⟩

/-- `not` from parser.ts: advance one character unless the next bytes equal
`s`.  The output is `get(0)` (which is `""` on empty input, as in JS). -/
def not (s : String) : Parser StringView Position String := fun input =>
  let substr := input.substrTS s.length
  if substr == s then
    .error ⟨input.pos, false, [], "unexpected " ++ quoted substr, none⟩
  else
    .info ⟨input.get 0, input.sub 1, true, none⟩

/-- `positional` from parser.ts: pair the output with the start position. -/
def positional [ParserInput ι π] (p : Parser ι π τ) : Parser ι π (Pair π τ) := fun input =>
  fmap (fun v => Pair.mk (ParserInput.pos input) v) p input

/-- `tag` from parser.ts: on an uncommitted failure replace the expectation
set with the tag; on a committed failure attach the tag as context if none
is set. -/
def tag (p : Parser ι π τ) (name : String) : Parser ι π τ := fun input =>
  match p input with
  | .info r => .info r
  | .error e =>
    if e.consumedInput then
      match e.context with
      | none => .error { e with context := some name }
      | some _ => .error e
    else
      .error { e with expectations := [name] }

end parser

namespace lex

open stringView

/-- The token-type enumeration from lex.ts (named `Type` there; `Type` is a
Lean keyword, so the sibling copy's name `TokenType` is used). -/
inductive TokenType where
  | LeftParen | RightParen | LeftBracket | RightBracket | LeftBrace | RightBrace
  | Comma | Dot | Colon | Semicolon | Minus | Plus | Slash | Star | Percent
  | DoubleAmpersand | DoublePipe | Caret
  | Bang | BangEqual
  | Equal | EqualEqual
  | Greater | GreaterEqual
  | Less | LessEqual
  | PlusEqual | MinusEqual
  | StarEqual | SlashEqual | PercentEqual
  | Identifier | String | Number
  | If | Else | For | While | Return | Break | Continue | Var | Function | Nil | False | True
  | Eof
deriving DecidableEq, Repr

/-- The TS reverse enum mapping `Type[t]`, used in parser error messages. -/
def tokenTypeName : TokenType → String
  | .LeftParen => "LeftParen" | .RightParen => "RightParen"
  | .LeftBracket => "LeftBracket" | .RightBracket => "RightBracket"
  | .LeftBrace => "LeftBrace" | .RightBrace => "RightBrace"
  | .Comma => "Comma" | .Dot => "Dot" | .Colon => "Colon" | .Semicolon => "Semicolon"
  | .Minus => "Minus" | .Plus => "Plus" | .Slash => "Slash" | .Star => "Star"
  | .Percent => "Percent" | .DoubleAmpersand => "DoubleAmpersand"
  | .DoublePipe => "DoublePipe" | .Caret => "Caret"
  | .Bang => "Bang" | .BangEqual => "BangEqual"
  | .Equal => "Equal" | .EqualEqual => "EqualEqual"
  | .Greater => "Greater" | .GreaterEqual => "GreaterEqual"
  | .Less => "Less" | .LessEqual => "LessEqual"
  | .PlusEqual => "PlusEqual" | .MinusEqual => "MinusEqual"
  | .StarEqual => "StarEqual" | .SlashEqual => "SlashEqual" | .PercentEqual => "PercentEqual"
  | .Identifier => "Identifier" | .String => "String" | .Number => "Number"
  | .If => "If" | .Else => "Else" | .For => "For" | .While => "While"
  | .Return => "Return" | .Break => "Break" | .Continue => "Continue"
  | .Var => "Var" | .Function => "Function" | .Nil => "Nil"
  | .False => "False" | .True => "True" | .Eof => "Eof"

/-- A token's literal payload: `string | number | boolean | null` in TS. -/
inductive TValue where
  | str (s : String)
  | num (n : ℚ)
  | bool (b : Bool)
  | null
deriving DecidableEq, Repr

/-- `Token` from lex.ts: type, source position and literal payload. -/
structure Token where
  type : TokenType
  pos : Position
  value : TValue
deriving DecidableEq, Repr

def nonZeroDigits : String := "123456789"
def digits : String := "0" ++ nonZeroDigits
def nonDigitIdentCharacters : String :=
  "abcdefghijklmnopqrstuvwxyzABCDEFGHIJKLMNOPQRSTUVWXYZ_"
def identCharacters : String := digits ++ nonDigitIdentCharacters

/-- A `char` branch with its (discarded) output unified at `Unit`, so the
mixed-output `either` of `skipWhitespaceAndComments` typechecks; the TS
relies on the dynamic `null | string` union here. -/
def charU (c : Char) : parser.Parser StringView Position Unit :=
  parser.fmap (fun _ => ()) (parser.char c)

/-- `oneLineComment` from lex.ts. -/
def oneLineComment (fuel : Nat) : parser.Parser StringView Position Unit :=
  parser.discardLeft (parser.string "//")
    (parser.many fuel (parser.noneOf "\n\r") () (fun _ _ => ()))

/-- `multiLineComment` from lex.ts. -/
def multiLineComment (fuel : Nat) : parser.Parser StringView Position Unit :=
  parser.enclosed (parser.string "/*")
    (parser.many fuel (parser.not "*/") () (fun _ _ => ()))
    (parser.string "*/")

/-- `skipWhitespaceAndComments` from lex.ts. -/
def skipWhitespaceAndComments (fuel : Nat) : parser.Parser StringView Position Unit :=
  parser.many fuel
    (parser.try_ (parser.either
      [oneLineComment fuel, multiLineComment fuel, charU ' ', charU '\t', charU '\r', charU '\n']))
    () (fun _ _ => ())

/-- `lexeme` from lex.ts: skip whitespace/comments, then parse the lexeme at
its recorded start position; the token's payload is the explicit `value`
when given, else the parser output. -/
def lexeme (fuel : Nat) (p : parser.Parser StringView Position TValue)
    (type : TokenType) (value : Option TValue) : parser.Parser StringView Position Token :=
  parser.discardLeft (skipWhitespaceAndComments fuel)
    (parser.fmap (fun t => Token.mk type t.first (value.getD t.second)) (parser.positional p))

/-- `keyword` from lex.ts. -/
def keyword (fuel : Nat) (word : String) (type : TokenType) (value : Option TValue) :
    parser.Parser StringView Position Token :=
  lexeme fuel (parser.fmap TValue.str (parser.string word)) type value

def escapedCharacter : parser.Parser StringView Position Char :=
  parser.discardLeft (parser.char '\\') (parser.oneOf "\\\"")

def nonescapedCharacter : parser.Parser StringView Position Char :=
  parser.noneOf "\\\""

def character : parser.Parser StringView Position Char :=
  parser.either [nonescapedCharacter, escapedCharacter]

def characters (fuel : Nat) : parser.Parser StringView Position String :=
  parser.many fuel character "" (fun s c => s.push c)

def quotedString (fuel : Nat) : parser.Parser StringView Position String :=
  parser.enclosed (parser.char '\"') (characters fuel) (parser.char '\"')

/-- `asDigit` from lex.ts: `charCodeAt(0) - "0".charCodeAt(0)`. -/
def asDigit (digit : Char) : ℚ :=
  ((digit.toNat : ℤ) - ('0'.toNat : ℤ) : ℤ)

/-- `accumulateDigits` from lex.ts. -/
def accumulateDigits (acc : ℚ) (digit : Char) : ℚ :=
  acc * 10 + asDigit digit

def integralWithLeadZeroes (fuel : Nat) : parser.Parser StringView Position ℚ :=
  parser.many1 fuel (parser.oneOf digits) 0 accumulateDigits

def integralWithoutLeadZeroes (fuel : Nat) : parser.Parser StringView Position ℚ :=
  parser.bind (parser.oneOf nonZeroDigits)
    (fun digit input => parser.many fuel (parser.oneOf digits) (asDigit digit) accumulateDigits input)

/-- `negativeSign` from lex.ts; the TS sign strings "+"/"-" are the
characters here. -/
def negativeSign : parser.Parser StringView Position Char :=
  parser.option '+' (parser.char '-')

def integralPart (fuel : Nat) : parser.Parser StringView Position ℚ :=
  parser.combine negativeSign
    (parser.either [parser.fmap (fun _ => (0 : ℚ)) (parser.char '0'), integralWithoutLeadZeroes fuel])
    (fun sign i => if sign == '+' then i else -i)

def fractionalPart (fuel : Nat) : parser.Parser StringView Position ℚ :=
  parser.discardLeft (parser.char '.') (integralWithLeadZeroes fuel)

/-- JS truncating division direction of `%`: `a % b = a - b * trunc(a / b)`
(exact on the integral operands this lexer produces). -/
def jsTrunc (q : ℚ) : ℤ :=
  if q < 0 then ⌈q⌉ else ⌊q⌋

def jsMod (a b : ℚ) : ℚ :=
  a - b * (jsTrunc (a / b) : ℚ)

/-- The `while (f > 0)` loop in the `mantissa` combiner from lex.ts:
`d += f % 10; d /= 10; f = Math.floor(f / 10)`.  Fuel bounds the iteration
count; `fracLoop` supplies more fuel than the loop can use. -/
def fracStep : Nat → ℚ → ℚ → ℚ
  | 0, d, _ => d
  | fuel + 1, d, f =>
    if 0 < f then fracStep fuel ((d + jsMod f 10) / 10) ((⌊f / 10⌋ : ℤ) : ℚ)
    else d

def fracLoop (f : ℚ) : ℚ :=
  fracStep (f.num.natAbs + 1) 0 f

/-- `mantissa` from lex.ts. -/
def mantissa (fuel : Nat) : parser.Parser StringView Position ℚ :=
  parser.combine (integralPart fuel) (parser.option 0 (fractionalPart fuel))
    (fun i f => i + fracLoop f)

/-- `exponent` from lex.ts. -/
def exponent (fuel : Nat) : parser.Parser StringView Position ℚ :=
  parser.bind (parser.discardLeft (parser.oneOf "eE") (parser.either [parser.char '+', negativeSign]))
    (fun sign input =>
      parser.fmap (fun i => if sign == '+' then i else -i) (integralWithLeadZeroes fuel) input)

/-- `Math.pow(10, e)` for the integral exponents this lexer produces. -/
def jsPow10 (e : ℚ) : ℚ :=
  (10 : ℚ) ^ e.num

/-- `decimalNumber` from lex.ts. -/
def decimalNumber (fuel : Nat) : parser.Parser StringView Position ℚ :=
  parser.combine (mantissa fuel) (parser.option 0 (exponent fuel)) (fun m e => m * jsPow10 e)

/-- `validName` from lex.ts. -/
def validName (fuel : Nat) : parser.Parser StringView Position String :=
  parser.bind (parser.oneOf nonDigitIdentCharacters)
    (fun leadChar input =>
      parser.many fuel (parser.oneOf identCharacters) (String.singleton leadChar)
        (fun s r => s.push r) input)

/-- `token` from lex.ts: the 48 lexeme alternatives, in source order. -/
def token (fuel : Nat) : parser.Parser StringView Position Token :=
  parser.either [
    lexeme fuel (parser.fmap TValue.str (quotedString fuel)) .String none,
    lexeme fuel (parser.fmap TValue.num (decimalNumber fuel)) .Number none,
    keyword fuel "if" .If none,
    keyword fuel "else" .Else none,
    keyword fuel "for" .For none,
    keyword fuel "while" .While none,
    keyword fuel "return" .Return none,
    keyword fuel "break" .Break none,
    keyword fuel "continue" .Continue none,
    keyword fuel "var" .Var none,
    keyword fuel "function" .Function none,
    keyword fuel "nil" .Nil (some TValue.null),
    keyword fuel "false" .False (some (TValue.bool false)),
    keyword fuel "true" .True (some (TValue.bool true)),
    lexeme fuel (parser.fmap TValue.str (validName fuel)) .Identifier none,
    keyword fuel "&&" .DoubleAmpersand none,
    keyword fuel "||" .DoublePipe none,
    keyword fuel "!=" .BangEqual none,
    keyword fuel "==" .EqualEqual none,
    keyword fuel ">=" .GreaterEqual none,
    keyword fuel "<=" .LessEqual none,
    keyword fuel "+=" .PlusEqual none,
    keyword fuel "-=" .MinusEqual none,
    keyword fuel "*=" .StarEqual none,
    keyword fuel "/=" .SlashEqual none,
    keyword fuel "%=" .PercentEqual none,
    keyword fuel "(" .LeftParen none,
    keyword fuel ")" .RightParen none,
    keyword fuel "[" .LeftBracket none,
    keyword fuel "]" .RightBracket none,
    keyword fuel "\x7b" .LeftBrace none,
    keyword fuel "\x7d" .RightBrace none,
    keyword fuel "," .Comma none,
    keyword fuel "." .Dot none,
    keyword fuel ":" .Colon none,
    keyword fuel ";" .Semicolon none,
    keyword fuel "-" .Minus none,
    keyword fuel "+" .Plus none,
    keyword fuel "/" .Slash none,
    keyword fuel "*" .Star none,
    keyword fuel "%" .Percent none,
    keyword fuel "^" .Caret none,
    keyword fuel "!" .Bang none,
    keyword fuel "=" .Equal none,
    keyword fuel ">" .Greater none,
    keyword fuel "<" .Less none]

/-- `tokens` from lex.ts: all tokens, then an appended `Eof` token carrying
the rest position (the bind's continuation builds a `ParseInfo` directly). -/
def tokens (fuel : Nat) : parser.Parser StringView Position (List Token) :=
  parser.bind (parser.many fuel (token fuel) [] (fun acc t => acc ++ [t]))
    (fun toks rest =>
      .info ⟨toks ++ [Token.mk .Eof rest.pos TValue.null], rest, false, none⟩)

/-- `tokenize` from lex.ts: `null` (here `none`) on a lexer error.  The fuel
`input.length + 1` exceeds the iteration count of every repetition in the
lexer, since each iteration consumes at least one character. -/
def tokenize (input : String) : Option (List Token) :=
  match tokens (input.length + 1) (StringView.ofString input) with
  | .error _ => none
  | .info r => some r.output

end lex

namespace ast

open lex

/-- `Op` from ast.ts: an operator's token. -/
structure Op where
  token : Token
deriving DecidableEq, Repr

/-!
The AST from ast.ts (the copy defining `Assignment`/`ExprStatement`,
matched by the interpreter's visitors).  `Ident` nodes are their tokens
(`Expr.ident` wraps one where an `Ident` is used as an expression);
`Block` is its statement list; `ForStatement.init` and `.afterthought`
are `Option Statement` here, the parser only ever filling them with
the `VarDeclaration`/`Assignment` forms the TS types prescribe.
-/
mutual
inductive Expr where
  | literal (token : Token)
  | objectDef (contents : List (Expr × Expr))
  | functionDef (params : List Token) (body : List Statement)
  | ident (token : Token)
  | unaryExpr (op : Op) (rhs : Expr)
  | binaryExpr (op : Op) (lhs : Expr) (rhs : Expr)
  | functionCall (callee : Expr) (args : List Expr)
  | bracketAccess (lhs : Expr) (index : Expr)
  | dotAccess (lhs : Expr) (index : Token)

inductive Statement where
  | exprStatement (expr : Expr)
  | assignment (op : Op) (lhs : Expr) (rhs : Expr)
  | varDeclaration (name : Token) (initializer : Expr)
  | returnStatement (expr : Expr)
  | breakStatement
  | continueStatement
  | emptyStatement
  | block (statements : List Statement)
  | ifStatement (condition : Expr) (statement : Statement) (elseStatement : Option Statement)
  | whileStatement (condition : Expr) (statement : Statement)
  | forStatement (init : Option Statement) (condition : Option Expr)
      (afterthought : Option Statement) (statement : Statement)
end

end ast

namespace tparse

open stringView lex

/-- `TokenView` from parse.ts; the constructor clamps `start` to the token
count. -/
structure TokenView where
  val : List Token
  start : Nat
deriving Repr

/-- `new TokenView(val, start)` (with the constructor's clamping). -/
def TokenView.mkTV (val : List Token) (start : Nat) : TokenView :=
  ⟨val, min val.length start⟩

/-- `TokenView.sub`. -/
def TokenView.sub (v : TokenView) (n : Nat) : TokenView :=
  TokenView.mkTV v.val (v.start + n)

/-- `TokenView.empty` / `TokenView.pos` (a `TokenViewPosition` is its token
index, ordered by `>` in `furtherThan`). -/
instance : parser.ParserInput TokenView Nat where
  empty v := v.start == v.val.length
  pos v := v.start

instance : parser.PositionOrd Nat where
  furtherThan a other := a > other

/-- `token(type)` from parse.ts: match one token of the given type. -/
def token (type : TokenType) : parser.Parser TokenView Nat Token := fun input =>
  if input.start == input.val.length then
    .error ⟨input.start, false, [tokenTypeName type], "unexpected end of input", none⟩
  else
    match input.val.get? input.start with
    | some tok =>
      if tok.type == type then
        .info ⟨tok, input.sub 1, true, none⟩
      else
        .error ⟨input.start, false, [tokenTypeName type],
          "unexpected token " ++ tokenTypeName tok.type, none⟩
    | none =>
      .error ⟨input.start, false, [tokenTypeName type], "unexpected end of input", none⟩

/-- `list` from parse.ts. -/
def list (fuel : Nat) {τ σ : Type} (p : parser.Parser TokenView Nat τ)
    (separator : parser.Parser TokenView Nat σ) : parser.Parser TokenView Nat (List τ) :=
  parser.separatedBy fuel p separator [] (fun acc v => acc ++ [v])

def openParen := token .LeftParen
def closeParen := token .RightParen
def openBracket := token .LeftBracket
def closeBracket := token .RightBracket
def openBrace := token .LeftBrace
def closeBrace := token .RightBrace
def colon := token .Colon
def comma := token .Comma
def dot := token .Dot
def semicolon := token .Semicolon

def unaryOp : parser.Parser TokenView Nat ast.Op :=
  parser.tag (parser.fmap ast.Op.mk (parser.either [token .Plus, token .Minus, token .Bang]))
    "unary operator"
def multiplicationOp : parser.Parser TokenView Nat ast.Op :=
  parser.tag (parser.fmap ast.Op.mk (parser.either [token .Star, token .Slash, token .Percent]))
    "multiplication/division operator"
def additionOp : parser.Parser TokenView Nat ast.Op :=
  parser.tag (parser.fmap ast.Op.mk (parser.either [token .Plus, token .Minus]))
    "addition/subtraction operator"
def relationOp : parser.Parser TokenView Nat ast.Op :=
  parser.tag (parser.fmap ast.Op.mk
    (parser.either [token .Less, token .LessEqual, token .Greater, token .GreaterEqual]))
    "relation operator"
def equalityOp : parser.Parser TokenView Nat ast.Op :=
  parser.tag (parser.fmap ast.Op.mk (parser.either [token .EqualEqual, token .BangEqual]))
    "equality comparison operator"
def xorOp : parser.Parser TokenView Nat ast.Op :=
  parser.tag (parser.fmap ast.Op.mk (token .Caret)) "xor operator"
def andOp : parser.Parser TokenView Nat ast.Op :=
  parser.tag (parser.fmap ast.Op.mk (token .DoubleAmpersand)) "conjunction operator"
def orOp : parser.Parser TokenView Nat ast.Op :=
  parser.tag (parser.fmap ast.Op.mk (token .DoublePipe)) "disjunction operator"
def assignmentOp : parser.Parser TokenView Nat ast.Op :=
  parser.tag (parser.fmap ast.Op.mk
    (parser.either [token .Equal, token .PlusEqual, token .MinusEqual, token .StarEqual,
      token .SlashEqual, token .PercentEqual]))
    "assignment operator"

/-- `identifier` from parse.ts, stripped to its token; uses wrap it back
into `ast.Expr.ident` where an expression is required (`identExpr`). -/
def identifier : parser.Parser TokenView Nat Token :=
  parser.tag (token .Identifier) "identifier"

def identExpr : parser.Parser TokenView Nat ast.Expr :=
  parser.fmap ast.Expr.ident identifier

def nilLiteral : parser.Parser TokenView Nat ast.Expr :=
  parser.tag (parser.fmap ast.Expr.literal (token .Nil)) "nil literal"
def booleanLiteral : parser.Parser TokenView Nat ast.Expr :=
  parser.tag (parser.fmap ast.Expr.literal (parser.either [token .True, token .False]))
    "boolean literal"
def numberLiteral : parser.Parser TokenView Nat ast.Expr :=
  parser.tag (parser.fmap ast.Expr.literal (token .Number)) "number literal"
def stringLiteral : parser.Parser TokenView Nat ast.Expr :=
  parser.tag (parser.fmap ast.Expr.literal (token .String)) "string literal"

def literal : parser.Parser TokenView Nat ast.Expr :=
  parser.tag (parser.either [stringLiteral, numberLiteral, booleanLiteral, nilLiteral]) "literal"

def breakStmt : parser.Parser TokenView Nat ast.Statement :=
  parser.fmap (fun _ => ast.Statement.breakStatement) (parser.discardRight (token .Break) semicolon)
def continueStmt : parser.Parser TokenView Nat ast.Statement :=
  parser.fmap (fun _ => ast.Statement.continueStatement)
    (parser.discardRight (token .Continue) semicolon)

/-- `binaryExpr` from parse.ts: left-fold `(op, rhs)` tails onto the first
operand. -/
def binaryExpr (fuel : Nat) (expr : parser.Parser TokenView Nat ast.Expr)
    (op : parser.Parser TokenView Nat ast.Op) : parser.Parser TokenView Nat ast.Expr :=
  parser.bind expr (fun first input =>
    parser.many fuel (parser.combine op expr (fun o e => (o, e))) first
      (fun lhs rhs => ast.Expr.binaryExpr rhs.1 lhs rhs.2) input)

/-- A failure marking grammar-fuel exhaustion; never reached by the
computations below (the trampolined TS grammar recurses unboundedly). -/
def fuelErr {τ : Type} : parser.Parser TokenView Nat τ := fun input =>
  .error ⟨input.start, true, [], "grammar fuel exhausted", none⟩

/-!
The grammar of parse.ts.  The TS builds it as a cyclic object graph with
late-bound trampolines (`exprImpl`, `stmtImpl`, `unaryExprImpl`); here every
nonterminal is indexed by fuel and recursion decrements it.
-/
mutual

def exprP : Nat → parser.Parser TokenView Nat ast.Expr
  | 0 => fuelErr
  | fuel + 1 => parser.tag (orExprP fuel) "expression"

def statementP : Nat → parser.Parser TokenView Nat ast.Statement
  | 0 => fuelErr
  | fuel + 1 => parser.tag (stmtImplP fuel) "statement"

def statementsP : Nat → parser.Parser TokenView Nat (List ast.Statement)
  | 0 => fuelErr
  | fuel + 1 =>
    parser.many fuel (statementP fuel) []
      (fun acc r => match r with
        | ast.Statement.emptyStatement => acc
        | _ => acc ++ [r])

def blockStmtsP : Nat → parser.Parser TokenView Nat (List ast.Statement)
  | 0 => fuelErr
  | fuel + 1 => parser.enclosed openBrace (statementsP fuel) closeBrace

def keyValuePairP : Nat → parser.Parser TokenView Nat (ast.Expr × ast.Expr)
  | 0 => fuelErr
  | fuel + 1 =>
    parser.combine
      (parser.either [identExpr, parser.enclosed openBracket (exprP fuel) closeBracket])
      (parser.discardLeft colon (exprP fuel))
      (fun k v => (k, v))

def objectLiteralP : Nat → parser.Parser TokenView Nat ast.Expr
  | 0 => fuelErr
  | fuel + 1 =>
    parser.tag (parser.fmap ast.Expr.objectDef
      (parser.enclosed openBrace (list fuel (keyValuePairP fuel) comma) closeBrace))
      "object literal"

def functionLiteralP : Nat → parser.Parser TokenView Nat ast.Expr
  | 0 => fuelErr
  | fuel + 1 =>
    parser.tag (parser.combine
      (parser.discardLeft (token .Function)
        (parser.enclosed openParen (list fuel identifier comma) closeParen))
      (blockStmtsP fuel)
      (fun args body => ast.Expr.functionDef args body))
      "function literal"

def primaryExprP : Nat → parser.Parser TokenView Nat ast.Expr
  | 0 => fuelErr
  | fuel + 1 =>
    parser.either [literal, objectLiteralP fuel, functionLiteralP fuel, identExpr,
      parser.enclosed openParen (exprP fuel) closeParen]

def bracketAccessP : Nat → parser.Parser TokenView Nat (ast.Expr → ast.Expr)
  | 0 => fuelErr
  | fuel + 1 =>
    parser.fmap (fun e => fun expr => ast.Expr.bracketAccess expr e)
      (parser.enclosed openBracket (exprP fuel) closeBracket)

def dotAccessP : Nat → parser.Parser TokenView Nat (ast.Expr → ast.Expr)
  | 0 => fuelErr
  | _fuel + 1 =>
    parser.fmap (fun i => fun expr => ast.Expr.dotAccess expr i)
      (parser.discardLeft dot identifier)

def functionCallP : Nat → parser.Parser TokenView Nat (ast.Expr → ast.Expr)
  | 0 => fuelErr
  | fuel + 1 =>
    parser.fmap (fun args => fun expr => ast.Expr.functionCall expr args)
      (parser.enclosed openParen (list fuel (exprP fuel) comma) closeParen)

def postfixExprP : Nat → parser.Parser TokenView Nat ast.Expr
  | 0 => fuelErr
  | fuel + 1 =>
    parser.bind (primaryExprP fuel) (fun primary input =>
      parser.many fuel (parser.either [bracketAccessP fuel, dotAccessP fuel, functionCallP fuel])
        primary (fun expr op => op expr) input)

def unaryExprP : Nat → parser.Parser TokenView Nat ast.Expr
  | 0 => fuelErr
  | fuel + 1 =>
    parser.either [
      parser.combine unaryOp (unaryExprP fuel) (fun op expr => ast.Expr.unaryExpr op expr),
      postfixExprP fuel]

def multiplicationExprP : Nat → parser.Parser TokenView Nat ast.Expr
  | 0 => fuelErr
  | fuel + 1 => binaryExpr fuel (unaryExprP fuel) multiplicationOp

def additionExprP : Nat → parser.Parser TokenView Nat ast.Expr
  | 0 => fuelErr
  | fuel + 1 => binaryExpr fuel (multiplicationExprP fuel) additionOp

def relationExprP : Nat → parser.Parser TokenView Nat ast.Expr
  | 0 => fuelErr
  | fuel + 1 => binaryExpr fuel (additionExprP fuel) relationOp

def equalityExprP : Nat → parser.Parser TokenView Nat ast.Expr
  | 0 => fuelErr
  | fuel + 1 => binaryExpr fuel (relationExprP fuel) equalityOp

def xorExprP : Nat → parser.Parser TokenView Nat ast.Expr
  | 0 => fuelErr
  | fuel + 1 => binaryExpr fuel (equalityExprP fuel) xorOp

def andExprP : Nat → parser.Parser TokenView Nat ast.Expr
  | 0 => fuelErr
  | fuel + 1 => binaryExpr fuel (xorExprP fuel) andOp

def orExprP : Nat → parser.Parser TokenView Nat ast.Expr
  | 0 => fuelErr
  | fuel + 1 => binaryExpr fuel (andExprP fuel) orOp

def assignmentP : Nat → parser.Parser TokenView Nat ast.Statement
  | 0 => fuelErr
  | fuel + 1 =>
    parser.combine
      (postfixExprP fuel)
      (parser.combine assignmentOp (exprP fuel) (fun o e => (o, e)))
      (fun lhs rhs => ast.Statement.assignment rhs.1 lhs rhs.2)

def declarationP : Nat → parser.Parser TokenView Nat ast.Statement
  | 0 => fuelErr
  | fuel + 1 =>
    parser.combine
      (parser.discardLeft (token .Var) identifier)
      (parser.discardLeft (token .Equal) (exprP fuel))
      (fun name init => ast.Statement.varDeclaration name init)

def returnStmtP : Nat → parser.Parser TokenView Nat ast.Statement
  | 0 => fuelErr
  | fuel + 1 =>
    parser.fmap (fun e => ast.Statement.returnStatement e)
      (parser.discardRight (parser.discardLeft (token .Return) (exprP fuel)) semicolon)

def jumpStmtP : Nat → parser.Parser TokenView Nat ast.Statement
  | 0 => fuelErr
  | fuel + 1 => parser.either [breakStmt, continueStmt, returnStmtP fuel]

def ifStatementP : Nat → parser.Parser TokenView Nat ast.Statement
  | 0 => fuelErr
  | fuel + 1 =>
    parser.tag (parser.combine
      (parser.combine
        (parser.discardLeft (token .If) (parser.enclosed openParen (exprP fuel) closeParen))
        (statementP fuel)
        (fun cond stmt => (cond, stmt)))
      (parser.option none (parser.fmap some (parser.discardLeft (token .Else) (statementP fuel))))
      (fun ifStmt elseStmt => ast.Statement.ifStatement ifStmt.1 ifStmt.2 elseStmt))
      "if statement"

def whileStatementP : Nat → parser.Parser TokenView Nat ast.Statement
  | 0 => fuelErr
  | fuel + 1 =>
    parser.tag (parser.combine
      (parser.discardLeft (token .While) (parser.enclosed openParen (exprP fuel) closeParen))
      (statementP fuel)
      (fun cond stmt => ast.Statement.whileStatement cond stmt))
      "while statement"

def forSpecP : Nat → parser.Parser TokenView Nat
    (Option ast.Statement × Option ast.Expr × Option ast.Statement)
  | 0 => fuelErr
  | fuel + 1 =>
    parser.combine
      (parser.combine
        (parser.discardRight
          (parser.option none
            (parser.either [parser.fmap some (assignmentP fuel), parser.fmap some (declarationP fuel)]))
          semicolon)
        (parser.discardRight (parser.option none (parser.fmap some (exprP fuel))) semicolon)
        (fun init cond => (init, cond)))
      (parser.option none (parser.fmap some (assignmentP fuel)))
      (fun forSpec after => (forSpec.1, forSpec.2, after))

def forStatementP : Nat → parser.Parser TokenView Nat ast.Statement
  | 0 => fuelErr
  | fuel + 1 =>
    parser.tag (parser.combine
      (parser.discardLeft (token .For) (parser.enclosed openParen (forSpecP fuel) closeParen))
      (statementP fuel)
      (fun spec stmt => ast.Statement.forStatement spec.1 spec.2.1 spec.2.2 stmt))
      "for statement"

def exprStatementP : Nat → parser.Parser TokenView Nat ast.Statement
  | 0 => fuelErr
  | fuel + 1 =>
    parser.fmap (fun e => ast.Statement.exprStatement e)
      (parser.discardRight (exprP fuel) semicolon)

def stmtImplP : Nat → parser.Parser TokenView Nat ast.Statement
  | 0 => fuelErr
  | fuel + 1 =>
    parser.either [
      parser.fmap (fun _ => ast.Statement.emptyStatement) semicolon,
      parser.discardRight (declarationP fuel) semicolon,
      parser.discardRight (assignmentP fuel) semicolon,
      exprStatementP fuel,
      parser.fmap ast.Statement.block (blockStmtsP fuel),
      jumpStmtP fuel,
      ifStatementP fuel,
      whileStatementP fuel,
      forStatementP fuel]

end

/-- `program` from parse.ts: statements followed by the `Eof` token; the
`ast.Block` wrapper is the statement list itself. -/
def program (fuel : Nat) : parser.Parser TokenView Nat (List ast.Statement) :=
  parser.fmap (fun stmts => stmts) (parser.discardRight (statementsP fuel) (token .Eof))

/-- The observable outcome of `parse` from parse.ts: a program, a thrown
`ParseError` (its `ErrorInfo` plus the source position looked up in the
token list), or the uncaught host `TypeError` that `new TokenView(null)`
raises when `tokenize` has returned `null` (the guard
`tokens instanceof p.ErrorInfo` can never fire on `null`). -/
inductive ParseOutcome where
  | ast (program : List ast.Statement)
  | parseError (error : parser.ErrorInfo Nat) (pos : Option Position)
  | jsTypeError

/-- `parse` from parse.ts.  The grammar fuel `(tokens + 1) * 64` exceeds
both the repetition counts (each iteration consumes a token) and the
nesting depth of the trampolined grammar on the given token list.  On a
grammar error at token index `i`, the reported position is `tokens[i].pos`
(for `i` beyond the Eof index the TS expression would itself fault, which
`none` stands for; that branch is unreachable since errors are reported at
existing tokens). -/
def parse (input : String) : ParseOutcome :=
  match lex.tokenize input with
  | none => ParseOutcome.jsTypeError
  | some tokens =>
    match program ((tokens.length + 1) * 64) (TokenView.mkTV tokens 0) with
    | .info r => ParseOutcome.ast r.output
    | .error e => ParseOutcome.parseError e ((tokens.get? e.pos).map Token.pos)

end tparse

namespace interp

open lex ast

/-- The value-type enumeration from interpret.ts (a TS string enum named
`Type` there; `Type` is a Lean keyword). -/
inductive VType where
  | nil | boolean | number | string | function | object
deriving DecidableEq, Repr

/-- The string payload of the TS enum members, as used in error messages. -/
def VType.toStr : VType → String
  | .nil => "nil"
  | .boolean => "boolean"
  | .number => "number"
  | .string => "string"
  | .function => "function"
  | .object => "object"

/-- Runtime values: `null | boolean | number | string | Callable | Indexable`.
The `Callable`s reachable in this model are the interpreter's own
`TrashFunction`s and the `Indexable`s its `TrashObject`s; both live in the
heap (`InterpState`) and a value holds the heap index, so JS reference
equality is index equality. -/
inductive Value where
  | nil
  | bool (b : Bool)
  | num (n : ℚ)
  | str (s : String)
  | func (id : Nat)
  | obj (id : Nat)
deriving DecidableEq, Repr

/-- `typeOf` from interpret.ts (the `instanceof` cascade; the trailing
`InternalError` branch is unreachable here because `Value` is closed). -/
def typeOf : Value → VType
  | .obj _ => .object
  | .func _ => .function
  | .str _ => .string
  | .num _ => .number
  | .bool _ => .boolean
  | .nil => .nil

/-- A token payload as a runtime value (`visitLiteral` returns
`literal.token.value`). -/
def tokenValue : TValue → Value
  | .str s => .str s
  | .num n => .num n
  | .bool b => .bool b
  | .null => .nil

/-- The TS `token.value as string` cast; only applied to identifier and
string tokens, whose payload really is a string. -/
def tvalAsString : TValue → String
  | .str s => s
  | _ => ""

/-- JS number-to-string as used by string concatenation and messages,
exact for integral values; every number rendered by the theorems below is
integral, so the non-integral branch (JS shortest-decimal printing) is
never exercised. -/
def jsNumToString (n : ℚ) : String :=
  if n.den == 1 then toString n.num else "<non-integral>"

/-- JS string coercion of a token payload (`"..." + token.value`). -/
def tvalDisplay : TValue → String
  | .str s => s
  | .num n => jsNumToString n
  | .bool b => if b then "true" else "false"
  | .null => "null"

/-- The throwable kinds of interpret.ts: `TypeMismatchError` and
`EnvironmentError` (internal, always caught and rewrapped),
`InterpretError`, `InternalError`; plus the fuel marker standing for
nontermination of the modelled recursion. -/
inductive Err where
  | typeMismatchError (type : VType) (types : List VType)
  | environmentError (identifier : String)
  | interpretError (message : String) (token : Option Token)
  | internalError (message : String)
  | outOfFuel
deriving DecidableEq, Repr

/-- One `Environment` frame: the insertion-ordered `Map<string, Value>`
`_contents` and the `_parent` reference (`none` at a root frame). -/
structure Frame where
  contents : List (String × Value)
  parent : Option Nat
deriving DecidableEq, Repr

/-- A `TrashFunction`: its `FunctionDef` (params and body) plus the captured
`closure` frame reference. -/
structure FuncData where
  params : List Token
  body : List Statement
  closure : Nat

/-- A `TrashObject`: its `Map<Value, Value>` entries in insertion order. -/
structure ObjData where
  entries : List (Value × Value)
deriving DecidableEq, Repr

/-- The mutable world of an `Interpreter` run: the heaps of environment
frames, functions and objects, and the interpreter's `_environment`
register (a frame index). -/
structure InterpState where
  frames : List Frame
  funcs : List FuncData
  objs : List ObjData
  environment : Nat

/-- `Map.get` (JS): first entry with an equal key.  Key equality is
SameValueZero, which coincides with `==` on this model's keys. -/
def jsMapGet {κ α : Type} [BEq κ] (m : List (κ × α)) (k : κ) : Option α :=
  (m.find? (fun p => p.1 == k)).map (fun p => p.2)

/-- `Map.has` (JS). -/
def jsMapHas {κ α : Type} [BEq κ] (m : List (κ × α)) (k : κ) : Bool :=
  m.any (fun p => p.1 == k)

/-- `Map.set` (JS): update an existing key in place (keeping its position),
else append the new entry. -/
def jsMapSet {κ α : Type} [BEq κ] (m : List (κ × α)) (k : κ) (v : α) : List (κ × α) :=
  if jsMapHas m k then m.map (fun p => if p.1 == k then (k, v) else p)
  else m ++ [(k, v)]

def allocFrame (s : InterpState) (f : Frame) : InterpState × Nat :=
  ({ s with frames := s.frames ++ [f] }, s.frames.length)

def allocFunc (s : InterpState) (fd : FuncData) : InterpState × Nat :=
  ({ s with funcs := s.funcs ++ [fd] }, s.funcs.length)

def allocObj (s : InterpState) : InterpState × Nat :=
  ({ s with objs := s.objs ++ [⟨[]⟩] }, s.objs.length)

/-- `Environment.get`: walk the parent chain; `EnvironmentError` when the
name is unresolved at a root frame.  The chain fuel `id + 1` always
suffices because `extend`/`clone` only ever point a frame at an
already-allocated (hence lower-indexed) frame. -/
def envGetGo (s : InterpState) : Nat → Nat → String → Except Err Value
  | 0, _, _ => .error (.internalError "environment chain fuel exhausted")
  | fuel + 1, id, key =>
    match s.frames.get? id with
    | none => .error (.internalError "dangling environment reference")
    | some f =>
      match jsMapGet f.contents key with
      | some v => .ok v
      | none =>
        match f.parent with
        | some pid => envGetGo s fuel pid key
        | none => .error (.environmentError key)

def envGet (s : InterpState) (id : Nat) (key : String) : Except Err Value :=
  envGetGo s (id + 1) id key

/-- `Environment.set`: rewrite the nearest enclosing frame holding `key`;
`EnvironmentError` when no frame does. -/
def envSetGo (s : InterpState) : Nat → Nat → String → Value → Except Err InterpState
  | 0, _, _, _ => .error (.internalError "environment chain fuel exhausted")
  | fuel + 1, id, key, v =>
    match s.frames.get? id with
    | none => .error (.internalError "dangling environment reference")
    | some f =>
      if jsMapHas f.contents key then
        .ok { s with frames := s.frames.set id { f with contents := jsMapSet f.contents key v } }
      else
        match f.parent with
        | some pid => envSetGo s fuel pid key v
        | none => .error (.environmentError key)

def envSet (s : InterpState) (id : Nat) (key : String) (v : Value) : Except Err InterpState :=
  envSetGo s (id + 1) id key v

/-- `Environment.assign`: `EnvironmentError` if `key` is already bound in
this frame; otherwise bind it in place when the frame has no parent, or in
a `clone()` of the frame (copied contents, same parent) when it has one.
Returns the frame that now holds the binding, which the interpreter
installs as its environment register. -/
def envAssign (s : InterpState) (id : Nat) (key : String) (v : Value) :
    Except Err (InterpState × Nat) :=
  match s.frames.get? id with
  | none => .error (.internalError "dangling environment reference")
  | some f =>
    if jsMapHas f.contents key then .error (.environmentError key)
    else
      match f.parent with
      | some _ => .ok (allocFrame s ⟨jsMapSet f.contents key v, f.parent⟩)
      | none =>
        .ok ({ s with frames := s.frames.set id { f with contents := jsMapSet f.contents key v } }, id)

/-- `Environment.extend`: a fresh child frame with the given contents. -/
def extend (s : InterpState) (id : Nat) (contents : List (String × Value)) : InterpState × Nat :=
  allocFrame s ⟨contents, some id⟩

/-- `TrashObject.get`: missing keys yield `null`. -/
def objGet (s : InterpState) (id : Nat) (key : Value) : Except Err Value :=
  match s.objs.get? id with
  | none => .error (.internalError "dangling object reference")
  | some o => .ok ((jsMapGet o.entries key).getD .nil)

/-- `TrashObject.set`. -/
def objSet (s : InterpState) (id : Nat) (key v : Value) : Except Err InterpState :=
  match s.objs.get? id with
  | none => .error (.internalError "dangling object reference")
  | some o => .ok { s with objs := s.objs.set id ⟨jsMapSet o.entries key v⟩ }

/-- `isTruthy` from interpret.ts: everything but `null`, `false` and `0`. -/
def isTruthy (value : Value) : Bool :=
  !(value == Value.nil) && !(value == Value.bool false) && !(value == Value.num 0)

/-- `checkType` from interpret.ts. -/
def checkType (value : Value) (types : List VType) : Except Err Unit :=
  if types.any (fun t => typeOf value == t) then .ok ()
  else .error (.typeMismatchError (typeOf value) types)

/-- An L-value-or-value, the expression visitor's result type (`LValue` in
interpret.ts): a plain value, a `Variable(env, key)`, or an
`Accessor(indexable, key)`. -/
inductive LValue where
  | val (v : Value)
  | Variable (owner : Nat) (key : String)
  | Accessor (owner : Nat) (key : Value)

/-- Control-flow signals (`Result` in interpret.ts):
`null | Break | Continue | Return`. -/
inductive Result where
  | null
  | Break
  | Continue
  | Return (value : Value)
deriving DecidableEq, Repr

/-- `Variable.eval` / `Accessor.eval`. -/
def lvalEval (s : InterpState) : LValue → Except Err Value
  | .val v => .ok v
  | .Variable owner key => envGet s owner key
  | .Accessor owner key => objGet s owner key

/-- `Variable.assign` / `Accessor.assign`. -/
def lvalAssign (s : InterpState) : LValue → Value → Except Err InterpState
  | .val _, _ => .error (.internalError "assigning into a plain value")
  | .Variable owner key, v => envSet s owner key v
  | .Accessor owner key, v => objSet s owner key v

/-- The TS `(x as number)` cast, only reached behind a `checkType Number`. -/
def asNum : Value → ℚ
  | .num n => n
  | _ => 0

/-- JS `+` on two operands that each passed `checkType [Number, String]`:
numbers add; if either side is a string, the other is coerced to string and
they concatenate.  (The catch-all is unreachable behind the checks.) -/
def jsPlus (l r : Value) : Value :=
  match l, r with
  | .num a, .num b => .num (a + b)
  | .str a, .str b => .str (a ++ b)
  | .num a, .str b => .str (jsNumToString a ++ b)
  | .str a, .num b => .str (a ++ jsNumToString b)
  | _, _ => .nil

/-- The operator switch of `visitBinaryExpression` from interpret.ts, as a
function of the operator token and the two already-evaluated operands.
`/` is exact rational division here (IEEE ±∞/NaN on division by zero is not
modelled; no theorem exercises it) and `%` is the JS truncated remainder. -/
def binaryOp (op : Token) (left right : Value) : Except Err Value :=
  match op.type with
  | .Plus =>
    match checkType left [.number, .string] with
    | .error e => .error e
    | .ok _ =>
      match checkType right [.number, .string] with
      | .error e => .error e
      | .ok _ => .ok (jsPlus left right)
  | .Minus =>
    match checkType left [.number] with
    | .error e => .error e
    | .ok _ =>
      match checkType right [.number] with
      | .error e => .error e
      | .ok _ => .ok (.num (asNum left - asNum right))
  | .Star =>
    match checkType left [.number] with
    | .error e => .error e
    | .ok _ =>
      match checkType right [.number] with
      | .error e => .error e
      | .ok _ => .ok (.num (asNum left * asNum right))
  | .Slash =>
    match checkType left [.number] with
    | .error e => .error e
    | .ok _ =>
      match checkType right [.number] with
      | .error e => .error e
      | .ok _ => .ok (.num (asNum left / asNum right))
  | .Percent =>
    match checkType left [.number] with
    | .error e => .error e
    | .ok _ =>
      match checkType right [.number] with
      | .error e => .error e
      | .ok _ => .ok (.num (lex.jsMod (asNum left) (asNum right)))
  | .Greater =>
    match checkType left [.number] with
    | .error e => .error e
    | .ok _ =>
      match checkType right [.number] with
      | .error e => .error e
      | .ok _ => .ok (.bool (asNum left > asNum right))
  | .GreaterEqual =>
    match checkType left [.number] with
    | .error e => .error e
    | .ok _ =>
      match checkType right [.number] with
      | .error e => .error e
      | .ok _ => .ok (.bool (asNum left ≥ asNum right))
  | .Less =>
    match checkType left [.number] with
    | .error e => .error e
    | .ok _ =>
      match checkType right [.number] with
      | .error e => .error e
      | .ok _ => .ok (.bool (asNum left < asNum right))
  | .LessEqual =>
    match checkType left [.number] with
    | .error e => .error e
    | .ok _ =>
      match checkType right [.number] with
      | .error e => .error e
      | .ok _ => .ok (.bool (asNum left ≤ asNum right))
  | .EqualEqual => .ok (.bool (left == right))
  | .BangEqual => .ok (.bool (left != right))
  | .Caret => .ok (.bool (isTruthy left != isTruthy right))
  | .DoublePipe => .ok (.bool (isTruthy left || isTruthy right))
  | .DoubleAmpersand => .ok (.bool (isTruthy left && isTruthy right))
  | _ => .error (.internalError ("unexpected binary operator " ++ tvalDisplay op.value))

/-- The catch of `visitUnaryExpression`/`visitBinaryExpression`: rewrap a
`TypeMismatchError` as an `InterpretError` carrying the operator token. -/
def rewrapOperandError (op : Token) : Err → Err
  | .typeMismatchError t _ =>
    .interpretError ("unexpected operand of type " ++ t.toStr ++ " for operator "
      ++ tvalDisplay op.value) (some op)
  | e => e

/-- The catch of `visitAssignment`: also turns an `EnvironmentError` into
the "assigning into undeclared variable" `InterpretError`. -/
def rewrapAssign (op : Token) : Err → Err
  | .typeMismatchError t _ =>
    .interpretError ("unexpected operand of type " ++ t.toStr ++ " for operator "
      ++ tvalDisplay op.value) (some op)
  | .environmentError id =>
    .interpretError ("assigning into undeclared variable \x27" ++ id ++ "\x27") (some op)
  | e => e

/-- A state paired with a normal-or-thrown outcome.  The state survives a
throw, matching JS exceptions (which unwind without undoing heap effects). -/
abbrev ERes (α : Type) : Type := InterpState × Except Err α

/-- One compound-assignment arm of `visitAssignment`: read through the
handle, type-check both sides against `types`, write `f leftVal right`
back; every failure goes through the surrounding catch (`rewrapAssign`).
The five TS case arms differ only in `types` and `f`. -/
def compoundAssign (s : InterpState) (op : Token) (left : LValue) (right : Value)
    (types : List VType) (f : Value → Value → Value) : ERes Result :=
  match lvalEval s left with
  | .error e => (s, .error (rewrapAssign op e))
  | .ok leftVal =>
    match checkType leftVal types with
    | .error e => (s, .error (rewrapAssign op e))
    | .ok _ =>
      match checkType right types with
      | .error e => (s, .error (rewrapAssign op e))
      | .ok _ =>
        match lvalAssign s left (f leftVal right) with
        | .ok s1 => (s1, .ok .null)
        | .error e => (s, .error (rewrapAssign op e))

mutual

/-- The expression visitor of interpret.ts (`ExprVisitor<LValue>`). -/
def visitExpr : Nat → InterpState → Expr → ERes LValue
  | 0, s, _ => (s, .error .outOfFuel)
  | fuel + 1, s, e =>
    match e with
    | .literal token => (s, .ok (.val (tokenValue token.value)))
    | .objectDef contents =>
      let (s1, oid) := allocObj s
      match objInit fuel s1 oid contents with
      | (s2, .ok _) => (s2, .ok (.val (.obj oid)))
      | (s2, .error err) => (s2, .error err)
    | .functionDef params body =>
      let (s1, fid) := allocFunc s ⟨params, body, s.environment⟩
      (s1, .ok (.val (.func fid)))
    | .ident token => (s, .ok (.Variable s.environment (tvalAsString token.value)))
    | .unaryExpr op rhs =>
      match evaluate fuel s rhs with
      | (s1, .error err) => (s1, .error err)
      | (s1, .ok operand) =>
        match op.token.type with
        | .Bang => (s1, .ok (.val (.bool (!isTruthy operand))))
        | .Plus => (s1, .ok (.val operand))
        | .Minus =>
          match checkType operand [.number] with
          | .ok _ => (s1, .ok (.val (.num (-(asNum operand)))))
          | .error err => (s1, .error (rewrapOperandError op.token err))
        | _ =>
          (s1, .error (.internalError ("unexpected unary operator " ++ tvalDisplay op.token.value)))
    | .functionCall callee args =>
      match evaluate fuel s callee with
      | (s1, .error err) => (s1, .error err)
      | (s1, .ok operand) =>
        match checkType operand [.function] with
        | .error (.typeMismatchError t _) =>
          (s1, .error (.interpretError ("attempted to call a variable of type " ++ t.toStr) none))
        | .error err => (s1, .error err)
        | .ok _ =>
          match evalArgs fuel s1 args with
          | (s2, .error err) => (s2, .error err)
          | (s2, .ok params) =>
            match operand with
            | .func fid =>
              match callFunc fuel s2 fid params with
              | (s3, .ok v) => (s3, .ok (.val v))
              | (s3, .error err) => (s3, .error err)
            | _ => (s2, .error (.internalError "callable of unmodelled kind"))
    | .bracketAccess lhs index =>
      match evaluate fuel s lhs with
      | (s1, .error err) => (s1, .error err)
      | (s1, .ok operand) =>
        match checkType operand [.object] with
        | .error (.typeMismatchError t _) =>
          (s1, .error (.interpretError ("attempted to index a variable of type " ++ t.toStr) none))
        | .error err => (s1, .error err)
        | .ok _ =>
          match evaluate fuel s1 index with
          | (s2, .error err) => (s2, .error err)
          | (s2, .ok idx) =>
            match operand with
            | .obj oid => (s2, .ok (.Accessor oid idx))
            | _ => (s2, .error (.internalError "indexable of unmodelled kind"))
    | .dotAccess lhs indexTok =>
      match evaluate fuel s lhs with
      | (s1, .error err) => (s1, .error err)
      | (s1, .ok operand) =>
        match checkType operand [.object] with
        | .error (.typeMismatchError t _) =>
          (s1, .error (.interpretError ("attempted to index a variable of type " ++ t.toStr) none))
        | .error err => (s1, .error err)
        | .ok _ =>
          match operand with
          | .obj oid => (s1, .ok (.Accessor oid (.str (tvalAsString indexTok.value))))
          | _ => (s1, .error (.internalError "indexable of unmodelled kind"))
    | .binaryExpr op lhs rhs =>
      match evaluate fuel s lhs with
      | (s1, .error err) => (s1, .error err)
      | (s1, .ok left) =>
        match evaluate fuel s1 rhs with
        | (s2, .error err) => (s2, .error err)
        | (s2, .ok right) =>
          match binaryOp op.token left right with
          | .ok v => (s2, .ok (.val v))
          | .error err => (s2, .error (rewrapOperandError op.token err))

/-- `Interpreter.evaluate`: visit, then dereference a `Variable` (its
`EnvironmentError` becomes "accessing undeclared variable") or an
`Accessor`. -/
def evaluate : Nat → InterpState → Expr → ERes Value
  | 0, s, _ => (s, .error .outOfFuel)
  | fuel + 1, s, e =>
    match visitExpr fuel s e with
    | (s1, .error err) => (s1, .error err)
    | (s1, .ok lv) =>
      match lv with
      | .val v => (s1, .ok v)
      | .Variable owner key =>
        match envGet s1 owner key with
        | .ok v => (s1, .ok v)
        | .error (.environmentError id) =>
          (s1, .error (.interpretError ("accessing undeclared variable \x27" ++ id ++ "\x27") none))
        | .error err => (s1, .error err)
      | .Accessor owner key =>
        match objGet s1 owner key with
        | .ok v => (s1, .ok v)
        | .error err => (s1, .error err)

/-- `expr.args.map(arg => this.evaluate(arg))`: left-to-right. -/
def evalArgs : Nat → InterpState → List Expr → ERes (List Value)
  | 0, s, _ => (s, .error .outOfFuel)
  | _fuel + 1, s, [] => (s, .ok [])
  | fuel + 1, s, e :: rest =>
    match evaluate fuel s e with
    | (s1, .error err) => (s1, .error err)
    | (s1, .ok v) =>
      match evalArgs fuel s1 rest with
      | (s2, .error err) => (s2, .error err)
      | (s2, .ok vs) => (s2, .ok (v :: vs))

/-- The pair loop of `visitObjectDefinition`: an `Ident` key is used
verbatim as a string key, any other key expression is evaluated; then the
value expression is evaluated and `set` on the object. -/
def objInit : Nat → InterpState → Nat → List (Expr × Expr) → ERes Unit
  | 0, s, _, _ => (s, .error .outOfFuel)
  | _fuel + 1, s, _, [] => (s, .ok ())
  | fuel + 1, s, oid, (k, vexpr) :: rest =>
    match k with
    | .ident tok =>
      match evaluate fuel s vexpr with
      | (s1, .error err) => (s1, .error err)
      | (s1, .ok v) =>
        match objSet s1 oid (.str (tvalAsString tok.value)) v with
        | .ok s2 => objInit fuel s2 oid rest
        | .error err => (s1, .error err)
    | _ =>
      match evaluate fuel s k with
      | (s1, .error err) => (s1, .error err)
      | (s1, .ok kv) =>
        match evaluate fuel s1 vexpr with
        | (s2, .error err) => (s2, .error err)
        | (s2, .ok v) =>
          match objSet s2 oid kv v with
          | .ok s3 => objInit fuel s3 oid rest
          | .error err => (s2, .error err)

/-- `TrashFunction.call`: arity check, then the body as a block in a fresh
frame extending the captured closure with the parameter bindings;
`Return(v)` yields `v`, no signal yields `null`, `Break`/`Continue` fail. -/
def callFunc : Nat → InterpState → Nat → List Value → ERes Value
  | 0, s, _, _ => (s, .error .outOfFuel)
  | fuel + 1, s, fid, args =>
    match s.funcs.get? fid with
    | none => (s, .error (.internalError "dangling function reference"))
    | some fd =>
      if args.length != fd.params.length then
        (s, .error (.interpretError "arity mismatch in function call" none))
      else
        let (s1, env) := extend s fd.closure
          (List.zip (fd.params.map (fun p => tvalAsString p.value)) args)
        match executeBlock fuel s1 fd.body env with
        | (s2, .error err) => (s2, .error err)
        | (s2, .ok .null) => (s2, .ok .nil)
        | (s2, .ok (.Return v)) => (s2, .ok v)
        | (s2, .ok .Break) =>
          (s2, .error (.interpretError "unexpected break in function body" none))
        | (s2, .ok .Continue) =>
          (s2, .error (.interpretError "unexpected continue in function body" none))

/-- The statement visitor of interpret.ts (`StmtVisitor<Result>`). -/
def execStmt : Nat → InterpState → Statement → ERes Result
  | 0, s, _ => (s, .error .outOfFuel)
  | fuel + 1, s, st =>
    match st with
    | .exprStatement e =>
      match evaluate fuel s e with
      | (s1, .error err) => (s1, .error err)
      | (s1, .ok _) => (s1, .ok .null)
    | .assignment op lhs rhs =>
      match visitExpr fuel s lhs with
      | (s1, .error err) => (s1, .error err)
      | (s1, .ok left) =>
        match evaluate fuel s1 rhs with
        | (s2, .error err) => (s2, .error err)
        | (s2, .ok right) =>
          match left with
          | .val _ =>
            (s2, .error (.interpretError "left hand side is not assignable" (some op.token)))
          | _ =>
            match op.token.type with
            | .Equal =>
              match lvalAssign s2 left right with
              | .ok s3 => (s3, .ok .null)
              | .error err => (s2, .error (rewrapAssign op.token err))
            | .PlusEqual => compoundAssign s2 op.token left right [.number, .string] jsPlus
            | .MinusEqual =>
              compoundAssign s2 op.token left right [.number]
                (fun a b => .num (asNum a - asNum b))
            | .StarEqual =>
              compoundAssign s2 op.token left right [.number]
                (fun a b => .num (asNum a * asNum b))
            | .SlashEqual =>
              compoundAssign s2 op.token left right [.number]
                (fun a b => .num (asNum a / asNum b))
            | .PercentEqual =>
              compoundAssign s2 op.token left right [.number]
                (fun a b => .num (lex.jsMod (asNum a) (asNum b)))
            | _ =>
              (s2, .error (.internalError
                ("unexpected assignment operator " ++ tvalDisplay op.token.value)))
    | .varDeclaration name init =>
      match evaluate fuel s init with
      | (s1, .error err) => (s1, .error err)
      | (s1, .ok v) =>
        match envAssign s1 s1.environment (tvalAsString name.value) v with
        | .ok (s2, newEnv) => ({ s2 with environment := newEnv }, .ok .null)
        | .error (.environmentError id) =>
          (s1, .error (.interpretError
            ("redeclaring a previously declared variable \x27" ++ id ++ "\x27") (some name)))
        | .error err => (s1, .error err)
    | .returnStatement e =>
      match evaluate fuel s e with
      | (s1, .error err) => (s1, .error err)
      | (s1, .ok v) => (s1, .ok (.Return v))
    | .breakStatement => (s, .ok .Break)
    | .continueStatement => (s, .ok .Continue)
    | .emptyStatement => (s, .ok .null)
    | .block stmts =>
      let (s1, env) := extend s s.environment []
      executeBlock fuel s1 stmts env
    | .ifStatement cond thenS elseS =>
      match evaluate fuel s cond with
      | (s1, .error err) => (s1, .error err)
      | (s1, .ok v) =>
        if isTruthy v then execStmt fuel s1 thenS
        else
          match elseS with
          | some es => execStmt fuel s1 es
          | none => (s1, .ok .null)
    | .whileStatement cond body => whileLoop fuel s cond body
    | .forStatement init cond after body =>
      let previous := s.environment
      let (s1, newEnv) := extend s s.environment []
      let s2 := { s1 with environment := newEnv }
      match
        (match init with
          | none => (s2, Except.ok Result.null)
          | some initSt => execStmt fuel s2 initSt) with
      | (s3, .error err) => ({ s3 with environment := previous }, .error err)
      | (s3, .ok _) =>
        match forLoop fuel s3 cond after body with
        | (s4, r) => ({ s4 with environment := previous }, r)

/-- The `while` loop of `visitWhileStatement`: `Break` stops the loop
(yielding `null`), `Return` propagates, `Continue` and `null` iterate. -/
def whileLoop : Nat → InterpState → Expr → Statement → ERes Result
  | 0, s, _, _ => (s, .error .outOfFuel)
  | fuel + 1, s, cond, body =>
    match evaluate fuel s cond with
    | (s1, .error err) => (s1, .error err)
    | (s1, .ok v) =>
      if isTruthy v then
        match execStmt fuel s1 body with
        | (s2, .error err) => (s2, .error err)
        | (s2, .ok r) =>
          match r with
          | .Break => (s2, .ok .null)
          | .Return rv => (s2, .ok (.Return rv))
          | _ => whileLoop fuel s2 cond body
      else (s1, .ok .null)

/-- The `while` loop of `visitForStatement`: an absent condition is true;
after a `null`/`Continue` body result the afterthought (if any) runs with
its result discarded. -/
def forLoop : Nat → InterpState → Option Expr → Option Statement → Statement → ERes Result
  | 0, s, _, _, _ => (s, .error .outOfFuel)
  | fuel + 1, s, cond, after, body =>
    match
      (match cond with
        | none => (s, Except.ok true)
        | some c =>
          match evaluate fuel s c with
          | (s1, .error err) => (s1, .error err)
          | (s1, .ok v) => (s1, .ok (isTruthy v))) with
    | (s1, .error err) => (s1, .error err)
    | (s1, .ok cv) =>
      if cv then
        match execStmt fuel s1 body with
        | (s2, .error err) => (s2, .error err)
        | (s2, .ok r) =>
          match r with
          | .Break => (s2, .ok .null)
          | .Return rv => (s2, .ok (.Return rv))
          | _ =>
            match
              (match after with
                | none => (s2, Except.ok Result.null)
                | some a => execStmt fuel s2 a) with
            | (s3, .error err) => (s3, .error err)
            | (s3, .ok _) => forLoop fuel s3 cond after body
      else (s1, .ok .null)

/-- The statement loop of `executeBlock`: stop at the first non-`null`
signal or thrown error. -/
def execStmts : Nat → InterpState → List Statement → ERes Result
  | 0, s, _ => (s, .error .outOfFuel)
  | _fuel + 1, s, [] => (s, .ok .null)
  | fuel + 1, s, st :: rest =>
    match execStmt fuel s st with
    | (s1, .error err) => (s1, .error err)
    | (s1, .ok r) =>
      match r with
      | .null => execStmts fuel s1 rest
      | _ => (s1, .ok r)

/-- `Interpreter.executeBlock`: run the statements with `env` installed in
the environment register, restoring the previous register on every exit
(the TS `try`/`finally`), whether the body yields a signal or throws. -/
def executeBlock : Nat → InterpState → List Statement → Nat → ERes Result
  | 0, s, _, _ => (s, .error .outOfFuel)
  | fuel + 1, s, stmts, env =>
    let previous := s.environment
    match execStmts fuel { s with environment := env } stmts with
    | (s1, r) => ({ s1 with environment := previous }, r)

end

/-- The interpreter's starting world as the host drivers build it: frame 0
is the `Interpreter`'s own initial `_environment`, frame 1 the
host-constructed top-level `Environment` with the supplied global bindings
(`print` etc.); `executeBlock(program, environment)` then runs against
frame 1. -/
def initialState (globals : List (String × Value)) : InterpState :=
  ⟨[⟨[], none⟩, ⟨globals, none⟩], [], [], 0⟩

/-- Run a whole program the way the hosts do: `executeBlock` on the program
block against the host environment (frame 1). -/
def runProgram (fuel : Nat) (globals : List (String × Value)) (prog : List Statement) :
    ERes Result :=
  executeBlock fuel (initialState globals) prog 1

end interp

section claimDefinitions

open lex ast interp

/-- An identifier token (positions are irrelevant to evaluation). -/
def identTok (name : String) : Token := ⟨.Identifier, ⟨0, 0⟩, .str name⟩

/-- A number-literal expression. -/
def numLit (n : ℚ) : Expr := .literal ⟨.Number, ⟨0, 0⟩, .num n⟩

/-- A boolean-literal expression (the lexer tags `true`/`false` tokens with
their boolean payload). -/
def boolLit (b : Bool) : Expr := .literal ⟨(if b then .True else .False), ⟨0, 0⟩, .bool b⟩

/-- A string-literal expression. -/
def strLit (s : String) : Expr := .literal ⟨.String, ⟨0, 0⟩, .str s⟩

/-- An operator node (operator tokens carry their lexeme as payload). -/
def opTok (t : TokenType) (v : String) : Op := ⟨⟨t, ⟨0, 0⟩, .str v⟩⟩

/-- An identifier expression. -/
def identE (name : String) : Expr := .ident (identTok name)

/-- `var name = e;`. -/
def varDecl (name : String) (e : Expr) : Statement := .varDeclaration (identTok name) e

/-- `name = e;`. -/
def assignS (name : String) (e : Expr) : Statement :=
  .assignment (opTok .Equal "=") (identE name) e

/-- A call expression. -/
def callE (f : Expr) (args : List Expr) : Expr := .functionCall f args

/-- The binding of `name` in the host's top-level environment (frame 1)
after a run. -/
def globalVar (res : ERes Result) (name : String) : Option Value :=
  match res.1.frames.get? 1 with
  | some f => jsMapGet f.contents name
  | none => none

/-- The closure-mutation scenario inside a block (a non-global scope):
`var r = 0; { var a = n; var f = function(){ a = m; }; var b = 3; f(); r = a; }`. -/
def closureBlockProgram (n m : ℚ) : List Statement :=
  [varDecl "r" (numLit 0),
   .block [varDecl "a" (numLit n),
     varDecl "f" (.functionDef [] [assignS "a" (numLit m)]),
     varDecl "b" (numLit 3),
     .exprStatement (callE (identE "f") []),
     assignS "r" (identE "a")]]

/-- The same statements at global scope:
`var r = 0; var a = n; var f = function(){ a = m; }; var b = 3; f(); r = a;`. -/
def closureGlobalProgram (n m : ℚ) : List Statement :=
  [varDecl "r" (numLit 0),
   varDecl "a" (numLit n),
   varDecl "f" (.functionDef [] [assignS "a" (numLit m)]),
   varDecl "b" (numLit 3),
   .exprStatement (callE (identE "f") []),
   assignS "r" (identE "a")]

/-- `var x = 0; var f = function(){ x = 1; return false; }; var y = false && f();`:
the right operand of `&&` carries a side effect and the left operand is
already falsy. -/
def andSideEffectProgram : List Statement :=
  [varDecl "x" (numLit 0),
   varDecl "f" (.functionDef [] [assignS "x" (numLit 1), .returnStatement (boolLit false)]),
   varDecl "y" (.binaryExpr (opTok .DoubleAmpersand "&&") (boolLit false) (callE (identE "f") []))]

/-- `var f = function(a){ return a; }; f(1, 2);`. -/
def arityDemoProgram : List Statement :=
  [varDecl "f" (.functionDef [identTok "a"] [.returnStatement (identE "a")]),
   .exprStatement (callE (identE "f") [numLit 1, numLit 2])]

/-- `var f = function(){ 1; }; var y = f();` — the body ends without a
`return`. -/
def nilReturnDemoProgram : List Statement :=
  [varDecl "f" (.functionDef [] [.exprStatement (numLit 1)]),
   varDecl "y" (callE (identE "f") [])]

/-- `var f = function(){ return 5; }; var y = f();`. -/
def returnValueDemoProgram : List Statement :=
  [varDecl "f" (.functionDef [] [.returnStatement (numLit 5)]),
   varDecl "y" (callE (identE "f") [])]

/-- `var f = function(){ break; }; f();` — a stray `break` at function-body
level. -/
def strayBreakDemoProgram : List Statement :=
  [varDecl "f" (.functionDef [] [.breakStatement]),
   .exprStatement (callE (identE "f") [])]

/-- A heap with one user function `function(a){ return a; }` closed over
frame 1, for exercising `callFunc` directly. -/
def callDemoState : InterpState :=
  ⟨[⟨[], none⟩, ⟨[], none⟩], [⟨[identTok "a"], [.returnStatement (identE "a")], 1⟩], [], 0⟩

/-- A parser that fails with a committed error at the current position,
for exercising the `either` merge rules (parsers are plain functions). -/
def committedProbe : parser.Parser stringView.StringView stringView.Position Char := fun input =>
  .error ⟨input.pos, true, ["probe"], "committed probe failure", none⟩

/-- Whether `parse` rejected its input with a (thrown) `ParseError`. -/
def parseFailed : tparse.ParseOutcome → Bool
  | .parseError _ _ => true
  | _ => false

/-- Whether `parse "var x = 1 - 2;"` produced exactly the one-declaration
program whose initializer is the binary subtraction `1 - 2` (token payloads
and source positions included). -/
def parsesAsMinusDecl : tparse.ParseOutcome → Bool
  | .ast [ast.Statement.varDeclaration name (ast.Expr.binaryExpr op (.literal l1) (.literal l2))] =>
    name == ⟨.Identifier, ⟨0, 4⟩, .str "x"⟩ && op.token == ⟨.Minus, ⟨0, 10⟩, .str "-"⟩
      && l1 == ⟨.Number, ⟨0, 8⟩, .num 1⟩ && l2 == ⟨.Number, ⟨0, 12⟩, .num 2⟩
  | _ => false

end claimDefinitions

deriving instance DecidableEq for Except

/-- C1 (counterexample): the claim predicts that after
`var r = 0; { var a = 1; var f = function(){ a = 2; }; var b = 3; f(); r = a; }`
the read `r = a` in the block observes the closure's mutation and stores 2.
It does not: `var` in a non-global scope clones the frame
(`Environment.assign`/`clone`), so the block reads a stale copy of `a` and
`r` ends up `1`, not `2`. -/
theorem C1_counterexample :
    globalVar (interp.runProgram 100 [] (closureBlockProgram 1 2)) "r"
      = some (interp.Value.num 1)
    ∧ globalVar (interp.runProgram 100 [] (closureBlockProgram 1 2)) "r"
      ≠ some (interp.Value.num 2) := by
  constructor
  · decide!
  · decide!

/-- C1 (amended): a mutation of a captured variable by a nested function is
observed by a later read in the enclosing scope when that scope's frame is
not cloned between capture and read — in particular at the global frame,
where declarations bind in place, the property holds for all values
(`r = m` below); but in a non-global scope each `var` declaration clones
the current frame, so with a declaration intervening after the capture the
later read yields the pre-mutation value (`r = n` below). -/
theorem C1_amended_thm (n m : ℚ) :
    globalVar (interp.runProgram 100 [] (closureGlobalProgram n m)) "r"
      = some (interp.Value.num m)
    ∧ globalVar (interp.runProgram 100 [] (closureBlockProgram n m)) "r"
      = some (interp.Value.num n) := by
  constructor <;>
    simp [interp.runProgram, interp.initialState, interp.executeBlock, interp.execStmts,
      interp.execStmt, interp.evaluate, interp.visitExpr, interp.callFunc, interp.evalArgs,
      interp.envAssign, interp.envGet, interp.envGetGo, interp.envSet, interp.envSetGo,
      interp.extend, interp.allocFrame, interp.allocFunc, interp.jsMapGet, interp.jsMapHas,
      interp.jsMapSet, interp.lvalAssign, interp.lvalEval, interp.checkType, interp.typeOf,
      interp.tokenValue, interp.tvalAsString, globalVar, closureGlobalProgram,
      closureBlockProgram, varDecl, assignS, identE, identTok, numLit, callE, opTok]

/-- C2 (counterexample): the claim says `Number + String` raises a
`TypeMismatch` error; evaluating `1 + "a"` instead succeeds with the
string `"1a"` (each operand passes its own `checkType [Number, String]`
and JS `+` coerces). -/
theorem C2_counterexample :
    (interp.evaluate 10 (interp.initialState [])
        (.binaryExpr (opTok .Plus "+") (numLit 1) (strLit "a"))).2
      = Except.ok (interp.Value.str "1a") := by
  decide!

/-- C2 (amended): `+` adds two Numbers, concatenates two Strings, and on a
mixed Number/String pair coerces the number to its decimal string and
concatenates; a `TypeMismatch` arises exactly when an operand is neither
Number nor String (reported for the left operand first). -/
theorem C2_amended_thm :
    (∀ (pos : stringView.Position) (tv : lex.TValue) (a b : ℚ),
      interp.binaryOp ⟨.Plus, pos, tv⟩ (.num a) (.num b) = .ok (.num (a + b)))
    ∧ (∀ (pos : stringView.Position) (tv : lex.TValue) (x y : String),
      interp.binaryOp ⟨.Plus, pos, tv⟩ (.str x) (.str y) = .ok (.str (x ++ y)))
    ∧ (∀ (pos : stringView.Position) (tv : lex.TValue) (a : ℚ) (y : String),
      interp.binaryOp ⟨.Plus, pos, tv⟩ (.num a) (.str y)
        = .ok (.str (interp.jsNumToString a ++ y)))
    ∧ (∀ (pos : stringView.Position) (tv : lex.TValue) (x : String) (a : ℚ),
      interp.binaryOp ⟨.Plus, pos, tv⟩ (.str x) (.num a)
        = .ok (.str (x ++ interp.jsNumToString a)))
    ∧ (∀ (pos : stringView.Position) (tv : lex.TValue) (l r : interp.Value),
      interp.typeOf l ≠ .number → interp.typeOf l ≠ .string →
      interp.binaryOp ⟨.Plus, pos, tv⟩ l r
        = .error (.typeMismatchError (interp.typeOf l) [.number, .string]))
    ∧ (∀ (pos : stringView.Position) (tv : lex.TValue) (l r : interp.Value),
      (interp.typeOf l = .number ∨ interp.typeOf l = .string) →
      interp.typeOf r ≠ .number → interp.typeOf r ≠ .string →
      interp.binaryOp ⟨.Plus, pos, tv⟩ l r
        = .error (.typeMismatchError (interp.typeOf r) [.number, .string])) := by
  refine ⟨fun pos tv a b => rfl, fun pos tv x y => rfl, fun pos tv a y => rfl,
    fun pos tv x a => rfl, ?_, ?_⟩
  · intro pos tv l r h1 h2
    cases l <;> simp_all [interp.binaryOp, interp.checkType, interp.typeOf]
  · intro pos tv l r hl h1 h2
    cases l <;> cases r <;>
      simp_all [interp.binaryOp, interp.checkType, interp.typeOf, interp.jsPlus]

/-- C2 (witness): the amended theorem applied at `1 + "a"` (mixed,
concatenates), `true + 1` (left operand bad) and `1 + nil` (right operand
bad). -/
theorem C2_amended_witness :
    interp.binaryOp ⟨.Plus, ⟨0, 0⟩, .str "+"⟩ (.num 1) (.str "a")
      = .ok (.str (interp.jsNumToString 1 ++ "a"))
    ∧ interp.binaryOp ⟨.Plus, ⟨0, 0⟩, .str "+"⟩ (.bool true) (.num 1)
      = .error (.typeMismatchError (interp.typeOf (.bool true)) [.number, .string])
    ∧ interp.binaryOp ⟨.Plus, ⟨0, 0⟩, .str "+"⟩ (.num 1) interp.Value.nil
      = .error (.typeMismatchError (interp.typeOf interp.Value.nil) [.number, .string]) :=
  ⟨C2_amended_thm.2.2.1 ⟨0, 0⟩ (.str "+") 1 "a",
   C2_amended_thm.2.2.2.2.1 ⟨0, 0⟩ (.str "+") (.bool true) (.num 1) (by decide) (by decide),
   C2_amended_thm.2.2.2.2.2 ⟨0, 0⟩ (.str "+") (.num 1) .nil (Or.inl rfl) (by decide) (by decide)⟩

/-- C3 (counterexample): the claim says a later `either` branch failing at
the same position always contributes its expectations, so
`either(char('a'), char('b'))` on `"c"` should report both `'a'` and
`'b'`.  In fact `char` failures are uncommitted and `either` discards an
uncommitted later error entirely: the reported expectation set is
`['a']` alone. -/
theorem C3_counterexample :
    parser.either [parser.char 'a', parser.char 'b'] (stringView.StringView.ofString "c")
      = .error ⟨⟨0, 0⟩, false, [parser.quoted "a"],
          "unexpected character " ++ parser.quoted "c", none⟩ := by
  decide!

/-- C3 (amended): in `either(p, q)` with both branches failing, the later
branch's expectations are unioned into the retained error only when the
later failure consumed input and neither position is strictly farther; a
later uncommitted failure is discarded regardless of position. -/
theorem C3_amended_thm {ι π τ : Type} [parser.ParserInput ι π] [parser.PositionOrd π]
    (p q : parser.Parser ι π τ) (input : ι) (e1 e2 : parser.ErrorInfo π)
    (hp : p input = .error e1) (hq : q input = .error e2) :
    (e2.consumedInput = true →
      parser.PositionOrd.furtherThan e2.pos e1.pos = false →
      parser.PositionOrd.furtherThan e1.pos e2.pos = false →
      parser.either [p, q] input
        = .error { e1 with expectations := e1.expectations ++ e2.expectations })
    ∧ (e2.consumedInput = false → parser.either [p, q] input = .error e1) := by
  constructor
  · intro hc hf1 hf2
    simp [parser.either, parser.eitherGo, hp, hq, hc, hf1, hf2]
  · intro hc
    simp [parser.either, parser.eitherGo, hp, hq, hc]

/-- C3 (witness): the amended theorem applied to a committed same-position
probe failure (expectations union to `['a', "probe"]`) and to the
uncommitted `char('b')` failure (expectations stay `['a']`). -/
theorem C3_amended_witness :
    parser.either [parser.char 'a', committedProbe] (stringView.StringView.ofString "c")
      = .error ⟨⟨0, 0⟩, false, [parser.quoted "a", "probe"],
          "unexpected character " ++ parser.quoted "c", none⟩
    ∧ parser.either [parser.char 'a', parser.char 'b'] (stringView.StringView.ofString "c")
      = .error ⟨⟨0, 0⟩, false, [parser.quoted "a"],
          "unexpected character " ++ parser.quoted "c", none⟩ := by
  constructor
  · exact (C3_amended_thm (parser.char 'a') committedProbe
      (stringView.StringView.ofString "c") _ _ rfl rfl).1 rfl (by decide) (by decide)
  · exact (C3_amended_thm (parser.char 'a') (parser.char 'b')
      (stringView.StringView.ofString "c") _ _ rfl rfl).2 rfl

/-- C4: `&&` and `||` evaluate both operand expressions unconditionally,
left then right with all side effects (the equations thread the left
operand's state into the right operand's evaluation whatever the left
value), and yield the Bool conjunction/disjunction of the two truthiness
values; concretely, in `var y = false && f();` the call `f()` still runs
(its global side effect `x = 1` lands) even though the left operand already
decides the result. -/
theorem C4_thm :
    (∀ (fuel : Nat) (s : interp.InterpState) (pos : stringView.Position) (tv : lex.TValue)
        (l r : ast.Expr),
      interp.visitExpr (fuel + 1) s (.binaryExpr ⟨⟨.DoubleAmpersand, pos, tv⟩⟩ l r) =
        match interp.evaluate fuel s l with
        | (s1, .error err) => (s1, .error err)
        | (s1, .ok lv) =>
          match interp.evaluate fuel s1 r with
          | (s2, .error err) => (s2, .error err)
          | (s2, .ok rv) =>
            (s2, .ok (.val (.bool (interp.isTruthy lv && interp.isTruthy rv)))))
    ∧ (∀ (fuel : Nat) (s : interp.InterpState) (pos : stringView.Position) (tv : lex.TValue)
        (l r : ast.Expr),
      interp.visitExpr (fuel + 1) s (.binaryExpr ⟨⟨.DoublePipe, pos, tv⟩⟩ l r) =
        match interp.evaluate fuel s l with
        | (s1, .error err) => (s1, .error err)
        | (s1, .ok lv) =>
          match interp.evaluate fuel s1 r with
          | (s2, .error err) => (s2, .error err)
          | (s2, .ok rv) =>
            (s2, .ok (.val (.bool (interp.isTruthy lv || interp.isTruthy rv)))))
    ∧ globalVar (interp.runProgram 100 [] andSideEffectProgram) "x" = some (interp.Value.num 1)
    ∧ globalVar (interp.runProgram 100 [] andSideEffectProgram) "y"
      = some (interp.Value.bool false) := by
  refine ⟨?_, ?_, by decide!, by decide!⟩ <;>
  · intro fuel s pos tv l r
    rcases h1 : interp.evaluate fuel s l with ⟨s1, e1⟩
    cases e1 with
    | error err => simp [interp.visitExpr, h1]
    | ok lv =>
      rcases h2 : interp.evaluate fuel s1 r with ⟨s2, e2⟩
      cases e2 with
      | error err => simp [interp.visitExpr, interp.binaryOp, h1, h2]
      | ok rv => simp [interp.visitExpr, interp.binaryOp, h1, h2]

/-- C6: `executeBlock` leaves the interpreter's environment register exactly
as it found it on every exit path — normal completion, a
`Break`/`Continue`/`Return` signal, a thrown evaluator error, and even fuel
exhaustion — and the same restoration holds on every exit path of a `for`
statement (the modelled `try`/`finally` of interpret.ts). -/
theorem C6_thm :
    (∀ (fuel : Nat) (s : interp.InterpState) (stmts : List ast.Statement) (env : Nat),
      (interp.executeBlock fuel s stmts env).1.environment = s.environment)
    ∧ (∀ (fuel : Nat) (s : interp.InterpState) (i : Option ast.Statement)
        (c : Option ast.Expr) (a : Option ast.Statement) (b : ast.Statement),
      (interp.execStmt fuel s (.forStatement i c a b)).1.environment = s.environment) := by
  constructor
  · intro fuel s stmts env
    cases fuel with
    | zero => rfl
    | succ fuel =>
      rcases h : interp.execStmts fuel { s with environment := env } stmts with ⟨s1, r⟩
      simp [interp.executeBlock, h]
  · intro fuel s i c a b
    cases fuel with
    | zero => rfl
    | succ fuel =>
      simp only [interp.execStmt, interp.extend, interp.allocFrame]
      split <;> simp

/-- C7: the claim says a lexer-rejected input is reported as a structured
parse error at the offending character.  The code cannot do this:
`tokenize` returns `null` on a committed lexer failure, `parse`'s guard
`tokens instanceof ErrorInfo` never fires on `null`, and
`new TokenView(null)` then throws a host `TypeError` (shown on the
unterminated string `"ab`); and on an uncommitted lexer failure such as
the lone unlexable `@`, tokenization stops early and `parse` silently
returns the empty program, dropping the unlexable suffix. -/
theorem C7_thm :
    lex.tokenize "\"ab" = none
    ∧ tparse.parse "\"ab" = tparse.ParseOutcome.jsTypeError
    ∧ tparse.parse "@" = tparse.ParseOutcome.ast [] :=
  ⟨rfl, rfl, rfl⟩

/-- C8: calling a user function raises the arity `InterpretError` exactly
when the argument count differs from the parameter count; with matching
counts the body runs as a block in a fresh frame extending the closure,
yielding `v` on `Return(v)`, `Nil` on no signal, and the stray
break/continue error on `Break`/`Continue` — shown both as equations on
`TrashFunction.call` and on four concrete programs. -/
theorem C8_thm :
    (∀ (fuel : Nat) (s : interp.InterpState) (fid : Nat) (fd : interp.FuncData)
        (args : List interp.Value),
      s.funcs.get? fid = some fd →
      args.length ≠ fd.params.length →
      interp.callFunc (fuel + 1) s fid args
        = (s, .error (.interpretError "arity mismatch in function call" none)))
    ∧ (∀ (fuel : Nat) (s : interp.InterpState) (fid : Nat) (fd : interp.FuncData)
        (args : List interp.Value),
      s.funcs.get? fid = some fd →
      args.length = fd.params.length →
      interp.callFunc (fuel + 1) s fid args
        = (match interp.executeBlock fuel
              (interp.extend s fd.closure
                (List.zip (fd.params.map (fun p => interp.tvalAsString p.value)) args)).1
              fd.body
              (interp.extend s fd.closure
                (List.zip (fd.params.map (fun p => interp.tvalAsString p.value)) args)).2 with
          | (s2, .error err) => (s2, .error err)
          | (s2, .ok .null) => (s2, .ok .nil)
          | (s2, .ok (.Return v)) => (s2, .ok v)
          | (s2, .ok .Break) =>
            (s2, .error (.interpretError "unexpected break in function body" none))
          | (s2, .ok .Continue) =>
            (s2, .error (.interpretError "unexpected continue in function body" none))))
    ∧ (interp.runProgram 100 [] arityDemoProgram).2
      = .error (.interpretError "arity mismatch in function call" none)
    ∧ globalVar (interp.runProgram 100 [] nilReturnDemoProgram) "y" = some interp.Value.nil
    ∧ globalVar (interp.runProgram 100 [] returnValueDemoProgram) "y"
      = some (interp.Value.num 5)
    ∧ (interp.runProgram 100 [] strayBreakDemoProgram).2
      = .error (.interpretError "unexpected break in function body" none) := by
  refine ⟨?_, ?_, by decide!, by decide!, by decide!, by decide!⟩
  · intro fuel s fid fd args h hne
    rw [List.get?_eq_getElem?] at h
    simp [interp.callFunc, h, hne]
  · intro fuel s fid fd args h heq
    rw [List.get?_eq_getElem?] at h
    simp [interp.callFunc, h, heq]

/-- C8 (witness): the `callFunc` equations applied to a concrete heap with
`function(a){ return a; }`: two arguments raise the arity error, one
argument returns its value. -/
theorem C8_witness :
    interp.callFunc (9 + 1) callDemoState 0 [interp.Value.num 1, interp.Value.num 2]
      = (callDemoState, .error (.interpretError "arity mismatch in function call" none))
    ∧ (interp.callFunc (9 + 1) callDemoState 0 [interp.Value.num 7]).2
      = Except.ok (interp.Value.num 7) := by
  constructor
  · exact C8_thm.1 9 callDemoState 0 _ _ rfl (by decide)
  · rw [C8_thm.2.1 9 callDemoState 0 _ _ rfl rfl]
    decide!

/-- C9: when a run fails part-way (here on `b = 1;` with `b` undeclared),
the host's top-level frame keeps every binding committed before the
failure at its last-written value — the host-supplied binding is intact
and `a` holds the value `m` of its latest assignment — with no rollback
beyond restoring the environment register; the statements after the
failure point (`rest`) never run. -/
theorem C9_thm (n m : ℚ) (rest : List ast.Statement) :
    interp.runProgram 100 [("host", interp.Value.num 7)]
        ([varDecl "a" (numLit n), assignS "a" (numLit m), assignS "b" (numLit 1)] ++ rest)
      = (⟨[⟨[], none⟩, ⟨[("host", interp.Value.num 7), ("a", interp.Value.num m)], none⟩],
          [], [], 0⟩,
         .error (.interpretError "assigning into undeclared variable \x27b\x27"
           (some ⟨.Equal, ⟨0, 0⟩, .str "="⟩))) :=
  rfl

/-- C10: the lexer folds `-` followed by a digit into the literal:
`tokenize "1-2"` yields `Number(1), Number(-2), Eof` (not
`Number, Minus, Number`); consequently `var x = 1-2;` fails to parse,
while `var x = 1 - 2;` parses as the binary subtraction of the two number
literals. -/
theorem C10_thm :
    lex.tokenize "1-2" = some [⟨.Number, ⟨0, 0⟩, .num 1⟩, ⟨.Number, ⟨0, 1⟩, .num (-2)⟩,
        ⟨.Eof, ⟨0, 3⟩, .null⟩]
    ∧ parseFailed (tparse.parse "var x = 1-2;") = true
    ∧ parsesAsMinusDecl (tparse.parse "var x = 1 - 2;") = true := by
  refine ⟨by decide!, by decide!, by decide!⟩

/-- C5 (counterexample): the claim says a successful `seq`/`combine` is
consumed when at least one side consumed; `combine(lift, char)` on `"a"`
has a consuming second parser yet reports `consumedInput = false`, because
the flag is the conjunction of the two sides. -/
theorem C5_counterexample :
    parser.combine (parser.lift 'x') (parser.char 'a') (fun a b => (a, b))
        (stringView.StringView.ofString "a")
      = .info ⟨('x', 'a'), (stringView.StringView.ofString "a").sub 1, false, none⟩
    ∧ parser.char 'a' (stringView.StringView.ofString "a")
      = .info ⟨'a', (stringView.StringView.ofString "a").sub 1, true, none⟩ := by
  constructor
  · decide!
  · decide!

/-- C5 (amended): when `combine(p, q)` succeeds, its consumed flag is true
exactly when BOTH sub-parsers consumed input (the conjunction, not the
disjunction). -/
theorem C5_amended_thm {ι π τ1 τ2 υ : Type} [parser.ParserInput ι π] [parser.PositionOrd π]
    (p : parser.Parser ι π τ1) (q : parser.Parser ι π τ2) (fn : τ1 → τ2 → υ) (input : ι)
    (r1 : parser.ParseInfo ι π τ1) (r2 : parser.ParseInfo ι π τ2)
    (hp : p input = .info r1) (hq : q r1.rest = .info r2) :
    parser.combine p q fn input
      = .info ⟨fn r1.output r2.output, r2.rest, r1.consumedInput && r2.consumedInput, none⟩ := by
  simp [parser.combine, hp, hq]

/-- C5 (witness): the amended equation at `char('a'); char('b')` on `"ab"`
(both consume — combined flag true) and at `lift; char('a')` on `"a"`
(only one consumes — combined flag false). -/
theorem C5_amended_witness :
    parser.combine (parser.char 'a') (parser.char 'b') (fun x y => (x, y))
        (stringView.StringView.ofString "ab")
      = .info ⟨('a', 'b'), ((stringView.StringView.ofString "ab").sub 1).sub 1,
          true && true, none⟩
    ∧ parser.combine (parser.lift 'x') (parser.char 'a') (fun x y => (x, y))
        (stringView.StringView.ofString "a")
      = .info ⟨('x', 'a'), (stringView.StringView.ofString "a").sub 1, false && true, none⟩ := by
  constructor
  · exact C5_amended_thm (parser.char 'a') (parser.char 'b') _
      (stringView.StringView.ofString "ab") _ _ rfl rfl
  · exact C5_amended_thm (parser.lift 'x') (parser.char 'a') _
      (stringView.StringView.ofString "a") _ _ rfl rfl
